import Mathlib

/-!
Shallow embedding of the Kiwi GNOME extension's `FullscreenWorkspaceManager`
(fullscreen-window workspace isolator).

Windows are identified by natural numbers.  The host's workspace list is a
`List (List Nat)`: entry `i` is the list of windows on workspace index `i`.
Per-window host attributes (fullscreen, skip-taskbar, on-primary-monitor)
and the manager's per-window side state (`_kiwi_originalWorkspaceIndex`,
`_kiwi_isolated`, `_kiwi_fullscreenWorkspaceIndex`) live in a total map
`winData : Nat → WinData`, where JavaScript `undefined` is `none`.

JavaScript `Map` objects are association lists (`List (Nat × _)`); `set`
conses after erasing the key, `delete` filters the key out, `get` is
`List.lookup`.  One-shot GLib timeouts and idle sources are modelled as
pending tables; a scheduler event fires a pending entry.
-/

namespace Kiwi

/-- Host attributes plus manager side-state of one window. -/
structure WinData where
  fullscreen : Bool
  skipTaskbar : Bool
  onPrimary : Bool
  isolated : Bool
  originalWorkspaceIndex : Option Nat
  fullscreenWorkspaceIndex : Option Nat
deriving Repr, DecidableEq

/-- A window with default attributes (not fullscreen, shown in taskbar,
on the primary monitor, no manager side-state yet). -/
def WinData.plain : WinData :=
  { fullscreen := false, skipTaskbar := false, onPrimary := true,
    isolated := false, originalWorkspaceIndex := none,
    fullscreenWorkspaceIndex := none }

/-- Combined state of the host workspace manager and the
`FullscreenWorkspaceManager` instance. -/
structure State where
  /-- `workspaces[i]` = windows on workspace index `i` (host). -/
  workspaces : List (List Nat)
  /-- Per-window host flags and `_kiwi_*` side state. -/
  winData : Nat → WinData
  /-- Index of the active workspace (host). -/
  active : Nat
  /-- `_fullscreenWorkspaces`: workspaceIndex -> isolated fullscreen window. -/
  fullscreenWorkspaces : List (Nat × Nat)
  /-- `_windowSignals` keys: the tracked windows. -/
  windowSignals : List Nat
  /-- `_pendingIsolation` keys. -/
  pendingIsolation : List Nat
  /-- `_pendingRestore`: window -> (originalIndex, fullscreenWsIndex)
  captured by the scheduled closure. -/
  pendingRestore : List (Nat × Option Nat × Option Nat)
  /-- `_pendingCleanup` keys (actual workspace indices). -/
  pendingCleanup : List Nat
  /-- `_pendingCleanup` entry at the special `CLEANUP_ALL_ID` key. -/
  pendingCleanupAll : Bool
  /-- `_pendingWindowCreated` keys. -/
  pendingWindowCreated : List Nat
  /-- `_pendingWindowUnmanaged`: window ->
  (originalIndex, fullscreenWsIndex, windowWorkspaceIndex) captured
  by the scheduled closure. -/
  pendingWindowUnmanaged : List (Nat × Option Nat × Option Nat × Option Nat)
  /-- `_checkWorkspacesId != 0`. -/
  checkWorkspacesPending : Bool
  /-- `_isCreatingWorkspace` re-entrancy guard. -/
  isCreatingWorkspace : Bool
  /-- `org.gnome.mutter dynamic-workspaces`. -/
  dynamicWorkspaces : Bool
  /-- `org.gnome.mutter workspaces-only-on-primary`. -/
  workspacesOnlyOnPrimary : Bool
  /-- `org.gnome.desktop.wm.preferences num-workspaces`
  (`none` = setting unavailable). -/
  numWorkspacesSetting : Option Nat

-- `const MIN_WORKSPACES = 2`
def MIN_WORKSPACES : Nat := 2

-- `const MAX_WORKSPACES = 36`
def MAX_WORKSPACES : Nat := 36

-- `const KEEP_EMPTY_WORKSPACE_AT_END = true`
def KEEP_EMPTY_WORKSPACE_AT_END : Bool := true

/-- `wm.n_workspaces`. -/
def State.n (st : State) : Nat := st.workspaces.length

/-- Update the data of one window. -/
def State.setWin (st : State) (w : Nat) (d : WinData) : State :=
  { st with winData := fun x => if x = w then d else st.winData x }

/-- JS `Map.set` on `_fullscreenWorkspaces`. -/
def mapSet (m : List (Nat × Nat)) (k v : Nat) : List (Nat × Nat) :=
  (k, v) :: m.filter (fun p => p.1 ≠ k)

/-- JS `Map.delete` on `_fullscreenWorkspaces`. -/
def mapDel (m : List (Nat × Nat)) (k : Nat) : List (Nat × Nat) :=
  m.filter (fun p => p.1 ≠ k)

/-- `window.get_workspace()?.index()`: index of the workspace containing
`w`, `none` when the window is on no workspace. -/
def windowWorkspaceIdx (st : State) (w : Nat) : Option Nat :=
  st.workspaces.findIdx? (fun ws => w ∈ ws)

/-- `_filterWorkspaceRelevantWindows`. -/
def filterWorkspaceRelevantWindows (st : State) (ws : List Nat) : List Nat :=
  if st.workspacesOnlyOnPrimary then
    ws.filter (fun w => (st.winData w).onPrimary)
  else ws

/-- `ws.list_windows().filter(w => !w.skip_taskbar)` passed through
`_filterWorkspaceRelevantWindows` — the window list every occupancy
check in the manager uses for workspace `i`. -/
def relevantWindows (st : State) (i : Nat) : List Nat :=
  filterWorkspaceRelevantWindows st
    ((st.workspaces.getD i []).filter (fun w => !(st.winData w).skipTaskbar))

/-- `_getMaxAllowedWorkspaces`. -/
def getMaxAllowedWorkspaces (st : State) : Nat :=
  if st.dynamicWorkspaces then MAX_WORKSPACES
  else
    match st.numWorkspacesSetting with
    | some numWorkspaces => min numWorkspaces MAX_WORKSPACES
    | none => min st.n MAX_WORKSPACES

/-- `_canAppendWorkspace(bypassNumWorkspacesLimit)`. -/
def canAppendWorkspace (st : State) (bypassNumWorkspacesLimit : Bool) : Bool :=
  if st.n ≥ MAX_WORKSPACES then false
  else if !bypassNumWorkspacesLimit && st.n ≥ getMaxAllowedWorkspaces st then false
  else if st.isCreatingWorkspace then false
  else true

/-- `wm.append_new_workspace(false, ...)` wrapped in the
`_isCreatingWorkspace = true; ...; _isCreatingWorkspace = false` pattern
(the flag toggling nets to no change).  Appending fires the host's
`notify::n-workspaces`, which queues `_checkWorkspaces`. -/
def appendWorkspace (st : State) : State :=
  { st with workspaces := st.workspaces ++ [[]], checkWorkspacesPending := true }

/-- `wm.remove_workspace(ws, ...)` for the (empty) workspace at index `i`:
the host deletes the entry and re-indexes; the active index shifts down
when it was above `i`.  Fires `notify::n-workspaces`. -/
def removeWorkspaceAt (st : State) (i : Nat) : State :=
  { st with workspaces := st.workspaces.eraseIdx i,
            active := if i < st.active then st.active - 1 else st.active,
            checkWorkspacesPending := true }

/-- `window.change_workspace(targetWs)`: remove `w` from every workspace
window list and put it on workspace `i`. -/
def changeWorkspace (st : State) (w : Nat) (i : Nat) : State :=
  let cleared := st.workspaces.map (fun ws => ws.filter (fun x => x ≠ w))
  { st with workspaces := cleared.set i ((cleared.getD i []) ++ [w]) }

/-- `_findLastOccupiedWorkspaceIndex` inner loop: scan indices
`k-1, k-2, ..., 0` and return the first with relevant windows, else `-1`. -/
def lastOccupiedAux (st : State) : Nat → Int
  | 0 => -1
  | k + 1 => if relevantWindows st k ≠ [] then (k : Int) else lastOccupiedAux st k

/-- `_findLastOccupiedWorkspaceIndex` (`-1` when every workspace is empty). -/
def findLastOccupiedWorkspaceIndex (st : State) : Int :=
  lastOccupiedAux st st.n

/-- `_cancelWorkspaceCleanup(workspaceIndex)`. -/
def cancelWorkspaceCleanup (st : State) (i : Nat) : State :=
  { st with pendingCleanup := st.pendingCleanup.filter (fun j => j ≠ i) }

/-- `_scheduleWorkspaceCleanup(workspaceIndex)`: cancel then re-arm. -/
def scheduleWorkspaceCleanup (st : State) (i : Nat) : State :=
  { st with pendingCleanup := i :: st.pendingCleanup.filter (fun j => j ≠ i) }

/-- `_scheduleCleanupAllEmptyWorkspaces` (the `CLEANUP_ALL_ID` timer). -/
def scheduleCleanupAllEmptyWorkspaces (st : State) : State :=
  { st with pendingCleanupAll := true }

/-- `_onWorkspaceSwitched(wm, from, to, direction)`. -/
def onWorkspaceSwitched (st : State) (frm tgt : Nat) : State :=
  let st1 := cancelWorkspaceCleanup st tgt
  if frm ≠ tgt ∧ frm > 0 then
    if !st1.dynamicWorkspaces then scheduleCleanupAllEmptyWorkspaces st1
    else scheduleWorkspaceCleanup st1 frm
  else st1

/-- `ws.activate(...)` for the workspace at index `i`: the host switches
the active workspace and, when it actually changed, emits
`workspace-switched`, which runs `_onWorkspaceSwitched`. -/
def activateWs (st : State) (i : Nat) : State :=
  if i = st.active then st
  else onWorkspaceSwitched { st with active := i } st.active i

/-- The `while (wm.n_workspaces < MIN_WORKSPACES && this._canAppendWorkspace(true))`
loop of `_ensureEmptyWorkspaceAtEnd`, with explicit fuel: each iteration
appends one workspace, so the count strictly grows towards the
`MIN_WORKSPACES` bound and `MIN_WORKSPACES` iterations always suffice
(`ensureMin_guard_false` below proves the loop guard is false on exit,
so this equals the unbounded while loop). -/
def ensureMinLoop : Nat → State → State
  | 0, st => st
  | fuel + 1, st =>
    if st.n < MIN_WORKSPACES ∧ canAppendWorkspace st true = true then
      ensureMinLoop fuel (appendWorkspace st)
    else st

def ensureMinWorkspaces (st : State) : State :=
  ensureMinLoop MIN_WORKSPACES st

/-- `_ensureEmptyWorkspaceAtEnd`. -/
def ensureEmptyWorkspaceAtEnd (st : State) : State :=
  if st.isCreatingWorkspace then st
  else
    let st1 := ensureMinWorkspaces st
    if !KEEP_EMPTY_WORKSPACE_AT_END then st1
    else
      let lastOccupied := findLastOccupiedWorkspaceIndex st1
      if lastOccupied ≥ 0 ∧ (st1.n : Int) ≤ lastOccupied + 1 ∧
          canAppendWorkspace st1 true = true then
        appendWorkspace st1
      else st1

/-- One entry of the rebuilt `_fullscreenWorkspaces` map: keys above the
removed index slide down by one, the removed key (already deleted) is
skipped, keys below stay. -/
def shiftMapEntry (removedIndex : Nat) (p : Nat × Nat) : Option (Nat × Nat) :=
  if p.1 > removedIndex then some (p.1 - 1, p.2)
  else if p.1 < removedIndex then some p
  else none

/-- `win._kiwi_fullscreenWorkspaceIndex = newIdx` for one shifted map entry. -/
def shiftWinFsUpdate (removedIndex : Nat) (acc : State) (p : Nat × Nat) : State :=
  if p.1 > removedIndex ∧ (acc.winData p.2).fullscreenWorkspaceIndex ≠ none then
    acc.setWin p.2
      { acc.winData p.2 with fullscreenWorkspaceIndex := some (p.1 - 1) }
  else acc

/-- Slide one tracked window's `_kiwi_originalWorkspaceIndex` down past the
removed index. -/
def shiftOrigUpdate (removedIndex : Nat) (acc : State) (w : Nat) : State :=
  match (acc.winData w).originalWorkspaceIndex with
  | some j =>
    if j > removedIndex then
      acc.setWin w { acc.winData w with originalWorkspaceIndex := some (j - 1) }
    else acc
  | none => acc

/-- `_shiftFullscreenIndicesAfterRemove(removedIndex)`: first rebuild the
`_fullscreenWorkspaces` map (entries above the removed index slide down by
one, updating each moved window's `_kiwi_fullscreenWorkspaceIndex`), then
slide down every tracked window's `_kiwi_originalWorkspaceIndex` above the
removed index. -/
def shiftFullscreenIndicesAfterRemove (st : State) (removedIndex : Nat) : State :=
  let newMap := st.fullscreenWorkspaces.filterMap (shiftMapEntry removedIndex)
  let st1 := st.fullscreenWorkspaces.foldl (shiftWinFsUpdate removedIndex) st
  let st2 := { st1 with fullscreenWorkspaces := newMap }
  st2.windowSignals.foldl (shiftOrigUpdate removedIndex) st2

/-- `_cleanupWorkspaceIfEmpty(workspaceIndex)`. -/
def cleanupWorkspaceIfEmpty (st : State) (workspaceIndex : Nat) : State :=
  if workspaceIndex ≤ 0 then st
  else if st.n ≤ MIN_WORKSPACES then st
  else if workspaceIndex ≥ st.n then st
  else
    let windows := relevantWindows st workspaceIndex
    if windows = [] ∧ st.active ≠ workspaceIndex then
      let lastOccupied := findLastOccupiedWorkspaceIndex st
      -- keep the +1 empty workspace at the end
      if (workspaceIndex : Int) = lastOccupied + 1 ∧ st.n = workspaceIndex + 1 then st
      else if st.n - 1 < MIN_WORKSPACES then st
      else
        let st1 := { st with fullscreenWorkspaces := mapDel st.fullscreenWorkspaces workspaceIndex }
        let st2 := removeWorkspaceAt st1 workspaceIndex
        ensureEmptyWorkspaceAtEnd (shiftFullscreenIndicesAfterRemove st2 workspaceIndex)
    else ensureEmptyWorkspaceAtEnd st

/-- `_cleanupAllEmptyWorkspaces`.  The source collects the removable empty
indices, sorts them descending and removes them one by one, re-validating
each and stopping (`break`) once the count reaches `MIN_WORKSPACES`; since
the count never grows inside the loop, the `break` is equivalent to
skipping every remaining iteration, which is how the fold models it. -/
def cleanupAllEmptyWorkspaces (st : State) : State :=
  if st.n ≤ MIN_WORKSPACES then st
  else
    let activeIndex := st.active
    let lastOccupied := findLastOccupiedWorkspaceIndex st
    let emptyIndices := (List.range st.n).filter (fun i =>
      decide (1 ≤ i) && !(decide (i = activeIndex)) &&
      !(KEEP_EMPTY_WORKSPACE_AT_END && decide ((i : Int) = lastOccupied + 1) &&
        decide ((i : Int) = (st.n : Int) - 1)) &&
      decide (relevantWindows st i = []))
    let st1 := emptyIndices.reverse.foldl (fun acc idx =>
      if acc.n ≤ MIN_WORKSPACES then acc
      else if idx ≥ acc.n ∨ idx ≤ 0 then acc
      else if relevantWindows acc idx = [] ∧ acc.active ≠ idx then
        let acc1 := { acc with fullscreenWorkspaces := mapDel acc.fullscreenWorkspaces idx }
        let acc2 := removeWorkspaceAt acc1 idx
        shiftFullscreenIndicesAfterRemove acc2 idx
      else acc) st
    ensureEmptyWorkspaceAtEnd st1

/-- `_captureOriginalWorkspace(window)`. -/
def captureOriginalWorkspace (st : State) (w : Nat) : State :=
  if (st.winData w).originalWorkspaceIndex = none then
    st.setWin w { st.winData w with
      originalWorkspaceIndex := some ((windowWorkspaceIdx st w).getD 0) }
  else st

/-- `_cancelPendingIsolation(window)`. -/
def cancelPendingIsolation (st : State) (w : Nat) : State :=
  { st with pendingIsolation := st.pendingIsolation.filter (fun x => x ≠ w) }

/-- `_cancelPendingRestore(window)`. -/
def cancelPendingRestore (st : State) (w : Nat) : State :=
  { st with pendingRestore := st.pendingRestore.filter (fun p => p.1 ≠ w) }

/-- `_scheduleIsolation(window)` (debounced). -/
def scheduleIsolation (st : State) (w : Nat) : State :=
  if (st.winData w).isolated ∨ w ∈ st.pendingIsolation then st
  else
    let st1 := captureOriginalWorkspace st w
    { st1 with pendingIsolation := w :: st1.pendingIsolation }

/-- Tail of `_isolateFullscreenWindow` once the target workspace (index
`targetIdx`) is settled: move + activate + bookkeeping + cleanup of the
vacated workspace + trailing-empty maintenance. -/
def isolateFinish (st : State) (w : Nat) (leavingWorkspaceIndex targetIdx : Nat) : State :=
  let st1 := changeWorkspace st w targetIdx
  let st2 := activateWs st1 targetIdx
  let st3 := st2.setWin w { st2.winData w with
    isolated := true, fullscreenWorkspaceIndex := some targetIdx }
  let st4 := { st3 with fullscreenWorkspaces := mapSet st3.fullscreenWorkspaces targetIdx w }
  let st5 := cancelWorkspaceCleanup st4 targetIdx
  let st6 := if leavingWorkspaceIndex > 0 then scheduleWorkspaceCleanup st5 leavingWorkspaceIndex
             else st5
  ensureEmptyWorkspaceAtEnd st6

/-- Descending index list `newLast, newLast-1, ..., desired`
(`for (let i = newLastOccupiedIndex; i >= desiredTargetIndex; i--)`). -/
def descRange (desired : Nat) (newLast : Int) : List Nat :=
  if newLast < (desired : Int) then []
  else (List.range ((newLast - desired).toNat + 1)).map (fun k => newLast.toNat - k)

/-- One iteration of the shift loop in `_isolateFullscreenWindow`: move
every relevant window of workspace `i` to workspace `i+1`, carrying the
`_kiwi_fullscreenWorkspaceIndex` / `_fullscreenWorkspaces` bookkeeping. -/
def shiftOneWorkspace (st : State) (i : Nat) : State :=
  if i ≥ st.n then st
  else
    let windowsToMove := relevantWindows st i
    if windowsToMove = [] then st
    else if i + 1 ≥ st.n then st   -- `targetShiftWs` missing: continue
    else
      windowsToMove.foldl (fun acc w =>
        let acc1 := changeWorkspace acc w (i + 1)
        if (acc1.winData w).fullscreenWorkspaceIndex = some i then
          let acc2 := acc1.setWin w { acc1.winData w with
            fullscreenWorkspaceIndex := some (i + 1) }
          let newMap := mapSet (mapDel acc2.fullscreenWorkspaces i) (i + 1) w
          { acc2 with fullscreenWorkspaces := newMap }
        else acc1) st

/-- The right-to-left shift loop of `_isolateFullscreenWindow` (runs on the
state after the shift destination was secured). -/
def isolateShiftLoop (st : State) (desired : Nat) : State :=
  let newLastOccupiedIndex := findLastOccupiedWorkspaceIndex st
  (descRange desired newLastOccupiedIndex).foldl shiftOneWorkspace st

/-- The make-room path of `_isolateFullscreenWindow` for an occupied
target workspace: secure an empty shift destination after the last
occupied workspace (appending one if needed), then shift; `none` = the
`MAX_WORKSPACES` abort (`return` before any window has moved). -/
def isolateMakeRoom (st : State) (desired : Nat) : Option State :=
  let lastOccupiedIndex := findLastOccupiedWorkspaceIndex st
  if 0 ≤ lastOccupiedIndex ∧ lastOccupiedIndex + 1 < (st.n : Int) then
    some (isolateShiftLoop st desired)
  else if canAppendWorkspace st true then
    some (isolateShiftLoop (appendWorkspace st) desired)
  else none

/-- `_isolateFullscreenWindow(window)`. -/
def isolateFullscreenWindow (st : State) (w : Nat) : State :=
  if (st.winData w).isolated then st
  else
    let ciOpt := windowWorkspaceIdx st w
    let currentIndex := ciOpt.getD 0
    let allWindows := match ciOpt with
      | some i => relevantWindows st i
      | none => []
    let otherWindowsOnCurrent := (allWindows.filter (fun x => x ≠ w)).length
    let shouldMove := currentIndex = 0 ∨ otherWindowsOnCurrent > 0
    if ¬shouldMove then
      -- already alone on a non-main workspace: mark isolated in place
      let st1 := st.setWin w { st.winData w with
        isolated := true, fullscreenWorkspaceIndex := some currentIndex }
      let st2 := { st1 with
        fullscreenWorkspaces := mapSet st1.fullscreenWorkspaces currentIndex w }
      ensureEmptyWorkspaceAtEnd st2
    else
      let desiredTargetIndex := currentIndex + 1
      if desiredTargetIndex < st.n then
        if relevantWindows st desiredTargetIndex = [] then
          isolateFinish st w currentIndex desiredTargetIndex
        else
          match isolateMakeRoom st desiredTargetIndex with
          | none => st   -- ceiling abort, window untouched
          | some st2 => isolateFinish st2 w currentIndex desiredTargetIndex
      else
        -- no workspace at the target index: append one (bypassing limits)
        if canAppendWorkspace st true then
          let st2 := appendWorkspace st
          isolateFinish st2 w currentIndex (st2.n - 1)
        else st   -- ceiling abort, window untouched

/-- `_executeWindowRestore(window, originalIndex, fullscreenWsIndex)`. -/
def executeWindowRestore (st : State) (w : Nat)
    (originalIndex fullscreenWsIndex : Option Nat) : State :=
  let targetIndex := match originalIndex with
    | some k => min k (st.n - 1)   -- `Math.min(originalIndex, Math.max(0, n-1))`
    | none => 0
  let st1 :=
    if targetIndex < st.n then
      activateWs (changeWorkspace st w targetIndex) targetIndex
    else st
  let st2 := st1.setWin w { st1.winData w with originalWorkspaceIndex := none }
  match fullscreenWsIndex with
  | some f => if f > 0 then scheduleWorkspaceCleanup st2 f else st2
  | none => st2

/-- `_restoreWindowFromFullscreen(window)`. -/
def restoreWindowFromFullscreen (st : State) (w : Nat) : State :=
  if ¬(st.winData w).isolated then st
  else
    let st1 := cancelPendingRestore st w
    let fullscreenWsIndex := (st1.winData w).fullscreenWorkspaceIndex
    let originalIndex := (st1.winData w).originalWorkspaceIndex
    let st2 := st1.setWin w { st1.winData w with
      isolated := false, fullscreenWorkspaceIndex := none }
    let st3 := match fullscreenWsIndex with
      | some f => { st2 with fullscreenWorkspaces := mapDel st2.fullscreenWorkspaces f }
      | none => st2
    { st3 with pendingRestore := (w, originalIndex, fullscreenWsIndex) :: st3.pendingRestore }

/-- `_onWindowFullscreenChanged(window)`. -/
def onWindowFullscreenChanged (st : State) (w : Nat) : State :=
  if (st.winData w).fullscreen then scheduleIsolation st w
  else restoreWindowFromFullscreen (cancelPendingIsolation st w) w

/-- `_connectWindowSignals(window)`. -/
def connectWindowSignals (st : State) (w : Nat) : State :=
  if w ∈ st.windowSignals then st
  else if (st.winData w).skipTaskbar then st
  else
    let st1 := { st with windowSignals := w :: st.windowSignals }
    let st2 := captureOriginalWorkspace st1 w
    if (st2.winData w).fullscreen then onWindowFullscreenChanged st2 w else st2

/-- `_onWindowCreated(display, window)`. -/
def onWindowCreated (st : State) (w : Nat) : State :=
  let st1 := connectWindowSignals st w
  { st1 with pendingWindowCreated := w :: st1.pendingWindowCreated.filter (fun x => x ≠ w) }

/-- `_redirectWindowFromFullscreenWorkspace(window)`. -/
def redirectWindowFromFullscreenWorkspace (st : State) (w : Nat) : State :=
  if (st.winData w).fullscreen ∨ (st.winData w).skipTaskbar then st
  else
    match windowWorkspaceIdx st w with
    | none => st
    | some currentIndex =>
      match st.fullscreenWorkspaces.lookup currentIndex with
      | some fullscreenWindow =>
        if fullscreenWindow ≠ w ∧ 1 ≤ st.n ∧ 0 ≠ currentIndex then
          let st1 := changeWorkspace st w 0
          st1.setWin w { st1.winData w with originalWorkspaceIndex := some 0 }
        else st
      | none => st

/-- `_onWindowUnmanaged(window)` — the synchronous part of the handler:
cancel pending timers, capture the indices the deferred idle closure
uses, disconnect the window, and schedule the idle. -/
def onWindowUnmanaged (st : State) (w : Nat) : State :=
  let st1 := cancelPendingRestore (cancelPendingIsolation st w) w
  let fullscreenWsIndex := (st1.winData w).fullscreenWorkspaceIndex
  let originalIndex := (st1.winData w).originalWorkspaceIndex
  let windowWorkspaceIndex := windowWorkspaceIdx st1 w
  let st2 := { st1 with windowSignals := st1.windowSignals.filter (fun x => x ≠ w) }
  { st2 with pendingWindowUnmanaged :=
      (w, originalIndex, fullscreenWsIndex, windowWorkspaceIndex) ::
        st2.pendingWindowUnmanaged.filter (fun p => p.1 ≠ w) }

/-- Body of the deferred idle scheduled by `_onWindowUnmanaged`. -/
def windowUnmanagedIdle (st : State) (_w : Nat)
    (originalIndex fullscreenWsIndex windowWorkspaceIndex : Option Nat) : State :=
  let st1 := match originalIndex with
    | some k => if k < st.n ∧ st.active ≠ k then activateWs st k else st
    | none => st
  let st2 := match fullscreenWsIndex with
    | some f => { st1 with fullscreenWorkspaces := mapDel st1.fullscreenWorkspaces f }
    | none => st1
  -- `const wsToCleanup = fullscreenWsIndex ?? windowWorkspaceIndex`
  match fullscreenWsIndex <|> windowWorkspaceIndex with
  | some c => if c > 0 then scheduleWorkspaceCleanup st2 c else st2
  | none => st2

/-!  Event loop.  External events come from the host (fullscreen flag
changes, window creation/closing, user workspace switches); `fire*`
events are the GLib main loop dispatching one of the manager's pending
one-shot timeouts / idle sources (a no-op when nothing is pending, since
a cancelled source never fires). -/

inductive Event where
  | setFull (w : Nat) (b : Bool)
  | createWindow (w : Nat) (i : Nat) (fs sk : Bool)
  | closeWindow (w : Nat)
  | switchWorkspace (i : Nat)
  | fireIsolation (w : Nat)
  | fireRestore (w : Nat)
  | fireCleanup (i : Nat)
  | fireCleanupAll
  | fireWindowCreated (w : Nat)
  | fireWindowUnmanaged (w : Nat)
  | fireCheckWorkspaces
deriving Repr, DecidableEq

/-- Dispatch one event. -/
def step (st : State) : Event → State
  | .setFull w b =>
    -- host updates the fullscreen flag; `notify::fullscreen` is connected
    -- only for tracked windows
    let st1 := st.setWin w { st.winData w with fullscreen := b }
    if w ∈ st1.windowSignals then onWindowFullscreenChanged st1 w else st1
  | .createWindow w i fs sk =>
    -- host maps a fresh window onto workspace `i`, then emits `window-created`
    if windowWorkspaceIdx st w = none ∧ i < st.n then
      let st1 := st.setWin w { WinData.plain with fullscreen := fs, skipTaskbar := sk }
      let placed := st1.workspaces.set i ((st1.workspaces.getD i []) ++ [w])
      onWindowCreated { st1 with workspaces := placed } w
    else st
  | .closeWindow w =>
    -- `unmanaged` fires (for tracked windows) while the window can still
    -- report its workspace; afterwards the host drops it everywhere
    let st1 := if w ∈ st.windowSignals then onWindowUnmanaged st w else st
    { st1 with workspaces := st1.workspaces.map (fun ws => ws.filter (fun x => x ≠ w)) }
  | .switchWorkspace i =>
    if i < st.n then activateWs st i else st
  | .fireIsolation w =>
    if w ∈ st.pendingIsolation then
      let st1 := cancelPendingIsolation st w
      if (st1.winData w).fullscreen then isolateFullscreenWindow st1 w else st1
    else st
  | .fireRestore w =>
    match st.pendingRestore.lookup w with
    | some (originalIndex, fullscreenWsIndex) =>
      executeWindowRestore (cancelPendingRestore st w) w originalIndex fullscreenWsIndex
    | none => st
  | .fireCleanup i =>
    if i ∈ st.pendingCleanup then
      cleanupWorkspaceIfEmpty (cancelWorkspaceCleanup st i) i
    else st
  | .fireCleanupAll =>
    if st.pendingCleanupAll then
      cleanupAllEmptyWorkspaces { st with pendingCleanupAll := false }
    else st
  | .fireWindowCreated w =>
    if w ∈ st.pendingWindowCreated then
      let st1 := { st with pendingWindowCreated :=
        st.pendingWindowCreated.filter (fun x => x ≠ w) }
      ensureEmptyWorkspaceAtEnd (redirectWindowFromFullscreenWorkspace st1 w)
    else st
  | .fireWindowUnmanaged w =>
    match st.pendingWindowUnmanaged.lookup w with
    | some (originalIndex, fullscreenWsIndex, windowWorkspaceIndex) =>
      let st1 := { st with pendingWindowUnmanaged :=
        st.pendingWindowUnmanaged.filter (fun p => p.1 ≠ w) }
      windowUnmanagedIdle st1 w originalIndex fullscreenWsIndex windowWorkspaceIndex
    | none => st
  | .fireCheckWorkspaces =>
    if st.checkWorkspacesPending then
      ensureEmptyWorkspaceAtEnd { st with checkWorkspacesPending := false }
    else st

/-- Run a sequence of events. -/
def run (st : State) (evs : List Event) : State := evs.foldl step st

/-- No timer or idle source is pending: nothing more can fire without a
new external event ("settled"). -/
def noPending (st : State) : Bool :=
  st.pendingIsolation.isEmpty && st.pendingRestore.isEmpty &&
  st.pendingCleanup.isEmpty && !st.pendingCleanupAll &&
  st.pendingWindowCreated.isEmpty && st.pendingWindowUnmanaged.isEmpty &&
  !st.checkWorkspacesPending

/-- Number of workspaces strictly after the highest-index occupied one
(every such workspace has zero relevant windows by definition of
`findLastOccupiedWorkspaceIndex`). -/
def trailingWorkspaceCount (st : State) : Int :=
  (st.n : Int) - (findLastOccupiedWorkspaceIndex st + 1)

/-!  Basic preservation lemmas. -/

theorem foldl_preserve {α : Type} (P : State → Prop) (f : State → α → State)
    (h : ∀ s a, P s → P (f s a)) :
    ∀ (l : List α) (s : State), P s → P (List.foldl f s l)
  | [], _, hs => hs
  | a :: l, s, hs => foldl_preserve P f h l (f s a) (h s a hs)

@[simp] theorem workspaces_setWin (st : State) (w : Nat) (d : WinData) :
    (st.setWin w d).workspaces = st.workspaces := rfl

@[simp] theorem workspaces_cancelWorkspaceCleanup (st : State) (i : Nat) :
    (cancelWorkspaceCleanup st i).workspaces = st.workspaces := rfl

@[simp] theorem workspaces_scheduleWorkspaceCleanup (st : State) (i : Nat) :
    (scheduleWorkspaceCleanup st i).workspaces = st.workspaces := rfl

@[simp] theorem workspaces_scheduleCleanupAll (st : State) :
    (scheduleCleanupAllEmptyWorkspaces st).workspaces = st.workspaces := rfl

@[simp] theorem workspaces_cancelPendingIsolation (st : State) (w : Nat) :
    (cancelPendingIsolation st w).workspaces = st.workspaces := rfl

@[simp] theorem workspaces_cancelPendingRestore (st : State) (w : Nat) :
    (cancelPendingRestore st w).workspaces = st.workspaces := rfl

@[simp] theorem workspaces_onWorkspaceSwitched (st : State) (frm tgt : Nat) :
    (onWorkspaceSwitched st frm tgt).workspaces = st.workspaces := by
  unfold onWorkspaceSwitched
  dsimp only
  split
  · split <;> rfl
  · rfl

@[simp] theorem workspaces_activateWs (st : State) (i : Nat) :
    (activateWs st i).workspaces = st.workspaces := by
  unfold activateWs
  split
  · rfl
  · rw [workspaces_onWorkspaceSwitched]

@[simp] theorem workspaces_captureOriginalWorkspace (st : State) (w : Nat) :
    (captureOriginalWorkspace st w).workspaces = st.workspaces := by
  unfold captureOriginalWorkspace
  split <;> rfl

@[simp] theorem workspaces_scheduleIsolation (st : State) (w : Nat) :
    (scheduleIsolation st w).workspaces = st.workspaces := by
  unfold scheduleIsolation
  split
  · rfl
  · rw [show ∀ s : State, ∀ l, ({ s with pendingIsolation := l } : State).workspaces
        = s.workspaces from fun _ _ => rfl, workspaces_captureOriginalWorkspace]

@[simp] theorem workspaces_restoreWindowFromFullscreen (st : State) (w : Nat) :
    (restoreWindowFromFullscreen st w).workspaces = st.workspaces := by
  unfold restoreWindowFromFullscreen
  split
  · rfl
  · dsimp only
    split <;> rfl

@[simp] theorem workspaces_onWindowFullscreenChanged (st : State) (w : Nat) :
    (onWindowFullscreenChanged st w).workspaces = st.workspaces := by
  unfold onWindowFullscreenChanged
  split
  · rw [workspaces_scheduleIsolation]
  · rw [workspaces_restoreWindowFromFullscreen, workspaces_cancelPendingIsolation]

@[simp] theorem workspaces_connectWindowSignals (st : State) (w : Nat) :
    (connectWindowSignals st w).workspaces = st.workspaces := by
  unfold connectWindowSignals
  split
  · rfl
  split
  · rfl
  · dsimp only
    split
    · rw [workspaces_onWindowFullscreenChanged, workspaces_captureOriginalWorkspace]
    · rw [workspaces_captureOriginalWorkspace]

@[simp] theorem workspaces_onWindowCreated (st : State) (w : Nat) :
    (onWindowCreated st w).workspaces = st.workspaces := by
  unfold onWindowCreated
  rw [show ∀ s : State, ∀ l, ({ s with pendingWindowCreated := l } : State).workspaces
      = s.workspaces from fun _ _ => rfl, workspaces_connectWindowSignals]

@[simp] theorem workspaces_onWindowUnmanaged (st : State) (w : Nat) :
    (onWindowUnmanaged st w).workspaces = st.workspaces := rfl

@[simp] theorem workspaces_shiftFullscreenIndicesAfterRemove (st : State) (r : Nat) :
    (shiftFullscreenIndicesAfterRemove st r).workspaces = st.workspaces := by
  unfold shiftFullscreenIndicesAfterRemove
  dsimp only
  have h1 : ∀ (l : List (Nat × Nat)) (s : State), s.workspaces = st.workspaces →
      (List.foldl (shiftWinFsUpdate r) s l).workspaces = st.workspaces := by
    intro l s hs
    refine foldl_preserve (fun s => s.workspaces = st.workspaces) _ ?_ l s hs
    intro s' a h
    unfold shiftWinFsUpdate
    split <;> simpa
  have h2 : ∀ (l : List Nat) (s : State), s.workspaces = st.workspaces →
      (List.foldl (shiftOrigUpdate r) s l).workspaces = st.workspaces := by
    intro l s hs
    refine foldl_preserve (fun s => s.workspaces = st.workspaces) _ ?_ l s hs
    intro s' a h
    unfold shiftOrigUpdate
    split
    · split <;> simpa
    · exact h
  exact h2 _ _ (h1 _ _ rfl)

@[simp] theorem workspaces_windowUnmanagedIdle (st : State) (w : Nat)
    (o f x : Option Nat) :
    (windowUnmanagedIdle st w o f x).workspaces = st.workspaces := by
  unfold windowUnmanagedIdle
  dsimp only
  repeat' split
  all_goals simp

/-!  Workspace-count lemmas. -/

@[simp] theorem n_appendWorkspace (st : State) : (appendWorkspace st).n = st.n + 1 := by
  simp [appendWorkspace, State.n]

theorem n_removeWorkspaceAt (st : State) (i : Nat) (h : i < st.n) :
    (removeWorkspaceAt st i).n = st.n - 1 := by
  have h' : i < st.workspaces.length := h
  simp [removeWorkspaceAt, State.n, List.length_eraseIdx, h']

@[simp] theorem n_changeWorkspace (st : State) (w i : Nat) :
    (changeWorkspace st w i).n = st.n := by
  simp [changeWorkspace, State.n]

theorem n_congr {s s' : State} (h : s'.workspaces = s.workspaces) : s'.n = s.n := by
  simp [State.n, h]

/-- `appendWorkspace` leaves the flag, the settings, the window data and
the active index unchanged; its workspace list grows by one empty entry. -/
theorem appendWorkspace_fields (st : State) :
    (appendWorkspace st).winData = st.winData ∧
    (appendWorkspace st).workspacesOnlyOnPrimary = st.workspacesOnlyOnPrimary ∧
    (appendWorkspace st).isCreatingWorkspace = st.isCreatingWorkspace := by
  refine ⟨rfl, rfl, rfl⟩

/-- Every field of the state except `workspaces`/`checkWorkspacesPending`
is preserved by `ensureMinLoop`, and the workspace list only gains empty
entries at the end. -/
theorem ensureMinLoop_spec (fuel : Nat) (st : State) :
    ∃ k, (ensureMinLoop fuel st).workspaces = st.workspaces ++ List.replicate k [] ∧
      (ensureMinLoop fuel st).winData = st.winData ∧
      (ensureMinLoop fuel st).workspacesOnlyOnPrimary = st.workspacesOnlyOnPrimary ∧
      (ensureMinLoop fuel st).isCreatingWorkspace = st.isCreatingWorkspace ∧
      (ensureMinLoop fuel st).active = st.active ∧
      (ensureMinLoop fuel st).pendingCleanup = st.pendingCleanup ∧
      (ensureMinLoop fuel st).dynamicWorkspaces = st.dynamicWorkspaces ∧
      (ensureMinLoop fuel st).numWorkspacesSetting = st.numWorkspacesSetting := by
  induction fuel generalizing st with
  | zero => exact ⟨0, by simp [ensureMinLoop]⟩
  | succ fuel ih =>
    unfold ensureMinLoop
    split
    · obtain ⟨k, h1, h2, h3, h4, h5, h6, h7, h8⟩ := ih (appendWorkspace st)
      refine ⟨k + 1, ?_, h2, h3, h4, h5, h6, h7, h8⟩
      rw [h1]
      simp [appendWorkspace, List.replicate_succ]
    · exact ⟨0, by simp⟩

theorem n_le_ensureMinLoop (fuel : Nat) (st : State) : st.n ≤ (ensureMinLoop fuel st).n := by
  obtain ⟨k, hk, -⟩ := ensureMinLoop_spec fuel st
  simp [State.n, hk]

theorem canAppend_true_bypass (st : State) (hflag : st.isCreatingWorkspace = false) :
    canAppendWorkspace st true = true ↔ st.n < 36 := by
  simp [canAppendWorkspace, hflag, MAX_WORKSPACES]

theorem canAppend_false_of_flag (st : State) (b : Bool)
    (hflag : st.isCreatingWorkspace = true) : canAppendWorkspace st b = false := by
  simp only [canAppendWorkspace, hflag]
  split
  · rfl
  · split
    · rfl
    · simp

theorem two_le_ensureMinLoop (fuel : Nat) (st : State)
    (hflag : st.isCreatingWorkspace = false) (hfuel : 2 ≤ fuel + st.n) :
    2 ≤ (ensureMinLoop fuel st).n := by
  induction fuel generalizing st with
  | zero => simpa [ensureMinLoop] using hfuel
  | succ fuel ih =>
    unfold ensureMinLoop
    split
    · refine ih (appendWorkspace st) hflag ?_
      simp only [n_appendWorkspace]
      omega
    · rename_i h
      rw [not_and_or] at h
      rcases h with h | h
      · simp only [MIN_WORKSPACES] at h
        omega
      · have : ¬st.n < 36 := fun hc => h ((canAppend_true_bypass st hflag).mpr hc)
        omega

theorem ensureMinLoop_flag (fuel : Nat) (st : State) :
    (ensureMinLoop fuel st).isCreatingWorkspace = st.isCreatingWorkspace :=
  (ensureMinLoop_spec fuel st).choose_spec.2.2.2.1

/-- With the re-entrancy flag clear, the min-workspaces while loop always
reaches `MIN_WORKSPACES` (the loop guard is false on exit, so the bounded
fuel faithfully implements the source's unbounded `while`). -/
theorem ensureMin_guard_false (st : State) :
    ¬((ensureMinWorkspaces st).n < MIN_WORKSPACES ∧
      canAppendWorkspace (ensureMinWorkspaces st) true = true) := by
  rintro ⟨hlt, hcan⟩
  by_cases hflag : st.isCreatingWorkspace
  · have hf : (ensureMinWorkspaces st).isCreatingWorkspace = true := by
      rw [ensureMinWorkspaces, ensureMinLoop_flag]
      exact hflag
    rw [canAppend_false_of_flag _ _ hf] at hcan
    exact Bool.false_ne_true hcan
  · have h2 := two_le_ensureMinLoop MIN_WORKSPACES st (by simpa using hflag)
      (by simp [MIN_WORKSPACES])
    rw [ensureMinWorkspaces] at hlt
    simp only [MIN_WORKSPACES] at hlt h2
    omega

/-- `_ensureEmptyWorkspaceAtEnd` only appends empty workspaces; everything
but the workspace list and the queued-check flag is untouched. -/
theorem ensureEmpty_spec (st : State) :
    ∃ k, (ensureEmptyWorkspaceAtEnd st).workspaces = st.workspaces ++ List.replicate k [] ∧
      (ensureEmptyWorkspaceAtEnd st).winData = st.winData ∧
      (ensureEmptyWorkspaceAtEnd st).workspacesOnlyOnPrimary = st.workspacesOnlyOnPrimary ∧
      (ensureEmptyWorkspaceAtEnd st).isCreatingWorkspace = st.isCreatingWorkspace ∧
      (ensureEmptyWorkspaceAtEnd st).active = st.active ∧
      (ensureEmptyWorkspaceAtEnd st).pendingCleanup = st.pendingCleanup ∧
      (ensureEmptyWorkspaceAtEnd st).dynamicWorkspaces = st.dynamicWorkspaces ∧
      (ensureEmptyWorkspaceAtEnd st).numWorkspacesSetting = st.numWorkspacesSetting := by
  unfold ensureEmptyWorkspaceAtEnd
  split
  · exact ⟨0, by simp⟩
  · dsimp only
    split
    · exact ensureMinLoop_spec MIN_WORKSPACES st
    · split
      · obtain ⟨k, h1, h2, h3, h4, h5, h6, h7, h8⟩ := ensureMinLoop_spec MIN_WORKSPACES st
        refine ⟨k + 1, ?_, h2, h3, h4, h5, h6, h7, h8⟩
        show (ensureMinWorkspaces st).workspaces ++ [[]] = _
        rw [ensureMinWorkspaces, h1]
        simp [List.replicate_succ']
      · exact ensureMinLoop_spec MIN_WORKSPACES st

theorem n_le_ensureEmpty (st : State) : st.n ≤ (ensureEmptyWorkspaceAtEnd st).n := by
  obtain ⟨k, hk, -⟩ := ensureEmpty_spec st
  simp [State.n, hk]

/-!  Occupancy (`_findLastOccupiedWorkspaceIndex`) lemmas. -/

theorem getD_replicate_nil (k i : Nat) :
    (List.replicate k ([] : List Nat)).getD i [] = [] := by
  induction k generalizing i with
  | zero => simp
  | succ k ih =>
    cases i with
    | zero => simp [List.replicate_succ]
    | succ i =>
      rw [List.replicate_succ]
      exact ih i

theorem relevant_of_ge (st : State) (j : Nat) (hj : st.workspaces.length ≤ j) :
    relevantWindows st j = [] := by
  unfold relevantWindows filterWorkspaceRelevantWindows
  rw [List.getD_eq_default _ _ hj]
  split <;> rfl

/-- Appending empty workspaces changes no workspace's relevant-window list. -/
theorem relevant_extend (st s' : State) (k : Nat)
    (hw : s'.workspaces = st.workspaces ++ List.replicate k [])
    (hd : s'.winData = st.winData)
    (hp : s'.workspacesOnlyOnPrimary = st.workspacesOnlyOnPrimary) :
    ∀ i, relevantWindows s' i = relevantWindows st i := by
  intro i
  unfold relevantWindows filterWorkspaceRelevantWindows
  rw [hd, hp, hw]
  by_cases hi : i < st.workspaces.length
  · rw [List.getD_append _ _ _ _ hi]
  · rw [List.getD_append_right _ _ _ _ (Nat.le_of_not_lt hi), getD_replicate_nil,
      List.getD_eq_default _ _ (Nat.le_of_not_lt hi)]

theorem lastOccupiedAux_congr (s s' : State)
    (h : ∀ j, relevantWindows s' j = relevantWindows s j) :
    ∀ k, lastOccupiedAux s' k = lastOccupiedAux s k
  | 0 => rfl
  | k + 1 => by
    unfold lastOccupiedAux
    rw [h k, lastOccupiedAux_congr s s' h k]

theorem lastOccupiedAux_le (st : State) : ∀ k, lastOccupiedAux st k ≤ (k : Int) - 1
  | 0 => by simp [lastOccupiedAux]
  | k + 1 => by
    unfold lastOccupiedAux
    split
    · push_cast
      omega
    · have := lastOccupiedAux_le st k
      push_cast at *
      omega

theorem lastOccupiedAux_succ (st : State) (k : Nat) :
    lastOccupiedAux st (k + 1) =
      if relevantWindows st k ≠ [] then (k : Int) else lastOccupiedAux st k := rfl

theorem neg_one_le_lastOccupiedAux (st : State) : ∀ k, -1 ≤ lastOccupiedAux st k
  | 0 => by simp [lastOccupiedAux]
  | k + 1 => by
    rw [lastOccupiedAux_succ]
    split
    · omega
    · exact neg_one_le_lastOccupiedAux st k

theorem findLast_le (st : State) :
    findLastOccupiedWorkspaceIndex st ≤ (st.n : Int) - 1 :=
  lastOccupiedAux_le st st.n

theorem neg_one_le_findLast (st : State) :
    -1 ≤ findLastOccupiedWorkspaceIndex st :=
  neg_one_le_lastOccupiedAux st st.n

theorem lastOccupiedAux_add_empty (st : State) (len : Nat)
    (hempty : ∀ j, len ≤ j → relevantWindows st j = []) :
    ∀ k, lastOccupiedAux st (len + k) = lastOccupiedAux st len
  | 0 => rfl
  | k + 1 => by
    have h1 : len + (k + 1) = (len + k) + 1 := rfl
    rw [h1, lastOccupiedAux_succ,
      if_neg (by simpa using hempty (len + k) (Nat.le_add_right _ _))]
    exact lastOccupiedAux_add_empty st len hempty k

/-- Appending empty workspaces does not move the last-occupied index. -/
theorem findLast_extend (st s' : State) (k : Nat)
    (hw : s'.workspaces = st.workspaces ++ List.replicate k [])
    (hd : s'.winData = st.winData)
    (hp : s'.workspacesOnlyOnPrimary = st.workspacesOnlyOnPrimary) :
    findLastOccupiedWorkspaceIndex s' = findLastOccupiedWorkspaceIndex st := by
  have hrel := relevant_extend st s' k hw hd hp
  have hn : s'.n = st.workspaces.length + k := by
    simp [State.n, hw]
  unfold findLastOccupiedWorkspaceIndex
  rw [hn, lastOccupiedAux_add_empty s' st.workspaces.length
    (fun j hj => by rw [hrel j]; exact relevant_of_ge st j hj) k]
  exact lastOccupiedAux_congr st s' hrel st.workspaces.length

/-- After `_ensureEmptyWorkspaceAtEnd` (outside of workspace creation):
at least one workspace after the last occupied one, unless at the
absolute ceiling. -/
theorem ensure_trailing (st : State) (hflag : st.isCreatingWorkspace = false) :
    1 ≤ trailingWorkspaceCount (ensureEmptyWorkspaceAtEnd st) ∨
    36 ≤ (ensureEmptyWorkspaceAtEnd st).n := by
  unfold ensureEmptyWorkspaceAtEnd
  rw [if_neg (by simp [hflag])]
  dsimp only
  rw [if_neg (by simp [KEEP_EMPTY_WORKSPACE_AT_END])]
  have hflag1 : (ensureMinWorkspaces st).isCreatingWorkspace = false := by
    rw [ensureMinWorkspaces, ensureMinLoop_flag]
    exact hflag
  have h2 : 2 ≤ (ensureMinWorkspaces st).n :=
    two_le_ensureMinLoop MIN_WORKSPACES st hflag (by simp [MIN_WORKSPACES])
  have hLle := findLast_le (ensureMinWorkspaces st)
  have hLge := neg_one_le_findLast (ensureMinWorkspaces st)
  split
  · rename_i hcond
    obtain ⟨hL0, hn, -⟩ := hcond
    left
    have hfl : findLastOccupiedWorkspaceIndex (appendWorkspace (ensureMinWorkspaces st)) =
        findLastOccupiedWorkspaceIndex (ensureMinWorkspaces st) :=
      findLast_extend (ensureMinWorkspaces st) _ 1 (by simp [appendWorkspace]) rfl rfl
    have hnn : ((appendWorkspace (ensureMinWorkspaces st)).n : Int) =
        ((ensureMinWorkspaces st).n : Int) + 1 := by
      rw [n_appendWorkspace]
      push_cast
      ring
    unfold trailingWorkspaceCount
    rw [hfl, hnn]
    omega
  · rename_i hcond
    by_cases hL0 : 0 ≤ findLastOccupiedWorkspaceIndex (ensureMinWorkspaces st)
    · by_cases hn : ((ensureMinWorkspaces st).n : Int) ≤
          findLastOccupiedWorkspaceIndex (ensureMinWorkspaces st) + 1
      · right
        have hca : ¬canAppendWorkspace (ensureMinWorkspaces st) true = true :=
          fun hc => hcond ⟨hL0, hn, hc⟩
        have h36 : ¬((ensureMinWorkspaces st).n < 36) :=
          fun hlt => hca ((canAppend_true_bypass (ensureMinWorkspaces st) hflag1).mpr hlt)
        omega
      · left
        unfold trailingWorkspaceCount
        omega
    · left
      unfold trailingWorkspaceCount
      omega

/-!  Count preservation through each manager operation. -/

@[simp] theorem n_setWin (st : State) (w : Nat) (d : WinData) :
    (st.setWin w d).n = st.n := rfl

@[simp] theorem n_activateWs (st : State) (i : Nat) : (activateWs st i).n = st.n :=
  n_congr (workspaces_activateWs st i)

@[simp] theorem n_scheduleWorkspaceCleanup (st : State) (i : Nat) :
    (scheduleWorkspaceCleanup st i).n = st.n := rfl

@[simp] theorem n_cancelWorkspaceCleanup (st : State) (i : Nat) :
    (cancelWorkspaceCleanup st i).n = st.n := rfl

@[simp] theorem n_scheduleCleanupAll (st : State) :
    (scheduleCleanupAllEmptyWorkspaces st).n = st.n := rfl

@[simp] theorem n_cancelPendingIsolation (st : State) (w : Nat) :
    (cancelPendingIsolation st w).n = st.n := rfl

@[simp] theorem n_cancelPendingRestore (st : State) (w : Nat) :
    (cancelPendingRestore st w).n = st.n := rfl

@[simp] theorem n_onWorkspaceSwitched (st : State) (frm tgt : Nat) :
    (onWorkspaceSwitched st frm tgt).n = st.n :=
  n_congr (workspaces_onWorkspaceSwitched st frm tgt)

@[simp] theorem n_restoreWindowFromFullscreen (st : State) (w : Nat) :
    (restoreWindowFromFullscreen st w).n = st.n :=
  n_congr (workspaces_restoreWindowFromFullscreen st w)

@[simp] theorem n_onWindowFullscreenChanged (st : State) (w : Nat) :
    (onWindowFullscreenChanged st w).n = st.n :=
  n_congr (workspaces_onWindowFullscreenChanged st w)

@[simp] theorem n_onWindowCreated (st : State) (w : Nat) :
    (onWindowCreated st w).n = st.n :=
  n_congr (workspaces_onWindowCreated st w)

@[simp] theorem n_onWindowUnmanaged (st : State) (w : Nat) :
    (onWindowUnmanaged st w).n = st.n := rfl

@[simp] theorem n_windowUnmanagedIdle (st : State) (w : Nat) (o f x : Option Nat) :
    (windowUnmanagedIdle st w o f x).n = st.n :=
  n_congr (workspaces_windowUnmanagedIdle st w o f x)

@[simp] theorem n_shiftFullscreenIndicesAfterRemove (st : State) (r : Nat) :
    (shiftFullscreenIndicesAfterRemove st r).n = st.n :=
  n_congr (workspaces_shiftFullscreenIndicesAfterRemove st r)

@[simp] theorem n_executeWindowRestore (st : State) (w : Nat) (o f : Option Nat) :
    (executeWindowRestore st w o f).n = st.n := by
  unfold executeWindowRestore
  dsimp only
  repeat' split
  all_goals simp

@[simp] theorem n_redirectWindowFromFullscreenWorkspace (st : State) (w : Nat) :
    (redirectWindowFromFullscreenWorkspace st w).n = st.n := by
  unfold redirectWindowFromFullscreenWorkspace
  repeat' split
  all_goals simp

@[simp] theorem n_shiftOneWorkspace (st : State) (i : Nat) :
    (shiftOneWorkspace st i).n = st.n := by
  unfold shiftOneWorkspace
  dsimp only
  split
  · rfl
  · split
    · rfl
    · split
      · rfl
      · refine foldl_preserve (fun s => s.n = st.n) _ ?_ _ st rfl
        intro s a h
        dsimp only
        split
        · simpa [State.n, changeWorkspace] using h
        · simpa [State.n, changeWorkspace] using h

@[simp] theorem n_isolateShiftLoop (st : State) (d : Nat) :
    (isolateShiftLoop st d).n = st.n := by
  unfold isolateShiftLoop
  exact foldl_preserve (fun s => s.n = st.n) _ (fun s a h => by simpa using h) _ st rfl

theorem n_le_isolateFinish (st : State) (w l t : Nat) :
    st.n ≤ (isolateFinish st w l t).n := by
  unfold isolateFinish
  dsimp only
  refine le_trans ?_ (n_le_ensureEmpty _)
  split <;> simp [State.n, changeWorkspace]

theorem n_le_isolateMakeRoom (st : State) (d : Nat) (s2 : State)
    (h : isolateMakeRoom st d = some s2) : st.n ≤ s2.n := by
  unfold isolateMakeRoom at h
  dsimp only at h
  split at h
  · cases h
    simp
  · split at h
    · cases h
      simp
    · cases h

theorem n_le_isolateFullscreenWindow (st : State) (w : Nat) :
    st.n ≤ (isolateFullscreenWindow st w).n := by
  unfold isolateFullscreenWindow
  dsimp only
  split
  · exact le_refl _
  · split
    · refine le_trans ?_ (n_le_ensureEmpty _)
      simp [State.n]
    · split
      · split
        · exact n_le_isolateFinish _ _ _ _
        · split
          · exact le_refl _
          · rename_i s2 hs2
            exact le_trans (n_le_isolateMakeRoom _ _ _ hs2) (n_le_isolateFinish _ _ _ _)
      · split
        · exact le_trans (by simp) (n_le_isolateFinish _ _ _ _)
        · exact le_refl _

theorem two_le_cleanupWorkspaceIfEmpty (st : State) (i : Nat) (h : 2 ≤ st.n) :
    2 ≤ (cleanupWorkspaceIfEmpty st i).n := by
  unfold cleanupWorkspaceIfEmpty
  dsimp only
  split
  · exact h
  split
  · exact h
  split
  · exact h
  rename_i hidx
  split
  · split
    · exact h
    split
    · exact h
    rename_i hmin
    refine le_trans ?_ (n_le_ensureEmpty _)
    simp only [n_shiftFullscreenIndicesAfterRemove]
    rw [n_removeWorkspaceAt]
    · simp only [State.n, MIN_WORKSPACES] at hmin ⊢
      omega
    · simp only [State.n] at hidx ⊢
      omega
  · exact le_trans h (n_le_ensureEmpty _)

theorem two_le_cleanupAllEmptyWorkspaces (st : State) (h : 2 ≤ st.n) :
    2 ≤ (cleanupAllEmptyWorkspaces st).n := by
  unfold cleanupAllEmptyWorkspaces
  dsimp only
  split
  · exact h
  · refine le_trans ?_ (n_le_ensureEmpty _)
    refine foldl_preserve (fun s => 2 ≤ s.n) _ ?_ _ st h
    intro s a hs
    dsimp only
    split
    · exact hs
    rename_i hgt
    split
    · exact hs
    rename_i hidx
    split
    · simp only [n_shiftFullscreenIndicesAfterRemove]
      rw [n_removeWorkspaceAt]
      · simp only [State.n, MIN_WORKSPACES] at hgt ⊢
        omega
      · rw [not_or] at hidx
        simp only [State.n] at hidx ⊢
        omega
    · exact hs

/-- Every event preserves the two-workspace minimum. -/
theorem two_le_step (st : State) (e : Event) (h : 2 ≤ st.n) : 2 ≤ (step st e).n := by
  cases e with
  | setFull w b =>
    unfold step
    dsimp only
    split
    · simpa using h
    · simpa using h
  | createWindow w i fs sk =>
    unfold step
    dsimp only
    split
    · rw [n_onWindowCreated]
      simpa [State.n] using h
    · exact h
  | closeWindow w =>
    unfold step
    dsimp only
    split
    · simpa [State.n] using h
    · simpa [State.n] using h
  | switchWorkspace i =>
    unfold step
    dsimp only
    split
    · simpa using h
    · exact h
  | fireIsolation w =>
    unfold step
    dsimp only
    split
    · split
      · exact le_trans (by simpa using h) (n_le_isolateFullscreenWindow _ _)
      · simpa using h
    · exact h
  | fireRestore w =>
    unfold step
    dsimp only
    split
    · simpa using h
    · exact h
  | fireCleanup i =>
    unfold step
    dsimp only
    split
    · exact two_le_cleanupWorkspaceIfEmpty _ _ (by simpa using h)
    · exact h
  | fireCleanupAll =>
    unfold step
    dsimp only
    split
    · exact two_le_cleanupAllEmptyWorkspaces _ (by simpa [State.n] using h)
    · exact h
  | fireWindowCreated w =>
    unfold step
    dsimp only
    split
    · refine le_trans ?_ (n_le_ensureEmpty _)
      rw [n_redirectWindowFromFullscreenWorkspace]
      simpa [State.n] using h
    · exact h
  | fireWindowUnmanaged w =>
    unfold step
    dsimp only
    split
    · rw [n_windowUnmanagedIdle]
      simpa [State.n] using h
    · exact h
  | fireCheckWorkspaces =>
    unfold step
    dsimp only
    split
    · refine le_trans ?_ (n_le_ensureEmpty _)
      simpa [State.n] using h
    · exact h

theorem two_le_run (st : State) (evs : List Event) (h : 2 ≤ st.n) :
    2 ≤ (run st evs).n := by
  unfold run
  exact foldl_preserve (fun s => 2 ≤ s.n) step (fun s e hs => two_le_step s e hs) evs st h

/-!  Locating a window's workspace. -/

theorem findIdxQ_append_some {α : Type} (p : α → Bool) :
    ∀ (l l' : List α) (i j : Nat), List.findIdx? p l i = some j →
      List.findIdx? p (l ++ l') i = some j
  | [], _, _, _, h => by simp [List.findIdx?_nil] at h
  | x :: l, l', i, j, h => by
    rw [List.cons_append, List.findIdx?_cons]
    rw [List.findIdx?_cons] at h
    split at h
    · rwa [if_pos (by assumption)]
    · rw [if_neg (by assumption)]
      exact findIdxQ_append_some p l l' (i + 1) j h

theorem findIdxQ_lt_length {α : Type} (p : α → Bool) :
    ∀ (l : List α) (j : Nat), List.findIdx? p l 0 = some j → j < l.length := by
  intro l j h
  rw [List.findIdx?_eq_some_iff_findIdx_eq] at h
  exact h.1

theorem findIdxQ_eq_some_of {α : Type} (p : α → Bool) :
    ∀ (l : List α) (i : Nat) (hi : i < l.length),
      p (l[i]) = true →
      (∀ j (hjl : j < l.length), j < i → p (l[j]) = false) →
      List.findIdx? p l 0 = some i
  | [], i, hi, _, _ => absurd hi (by simp)
  | x :: l, 0, _, hp, _ => by
    rw [List.findIdx?_cons, if_pos (by simpa using hp)]
  | x :: l, i + 1, hi, hp, hnot => by
    rw [List.findIdx?_cons,
      if_neg (by simpa using hnot 0 (by simp) (Nat.succ_pos i)),
      List.findIdx?_succ]
    rw [findIdxQ_eq_some_of p l i (by simpa using hi) (by simpa using hp)
      (fun j hjl hj => by simpa using hnot (j + 1) (by simpa using hjl) (by omega))]
    rfl

theorem wwIdx_congr (s' s : State) (w : Nat) (h : s'.workspaces = s.workspaces) :
    windowWorkspaceIdx s' w = windowWorkspaceIdx s w := by
  unfold windowWorkspaceIdx
  rw [h]

theorem wwIdx_lt_n {st : State} {w i : Nat} (h : windowWorkspaceIdx st w = some i) :
    i < st.n :=
  findIdxQ_lt_length _ _ _ h

/-- After `window.change_workspace(targetWs)` the window is found exactly on
the target workspace. -/
theorem wwIdx_changeWorkspace_self (st : State) (w i : Nat) (hi : i < st.n) :
    windowWorkspaceIdx (changeWorkspace st w i) w = some i := by
  unfold windowWorkspaceIdx changeWorkspace
  dsimp only
  refine findIdxQ_eq_some_of _ _ i (by simpa [State.n] using hi) ?_ ?_
  · rw [List.getElem_set_self]
    simp
  · intro j hjl hj
    rw [List.getElem_set_ne (by omega), List.getElem_map]
    simp

theorem wwIdx_extend {st s' : State} (w : Nat) (k : Nat)
    (hw : s'.workspaces = st.workspaces ++ List.replicate k [])
    {i : Nat} (h : windowWorkspaceIdx st w = some i) :
    windowWorkspaceIdx s' w = some i := by
  unfold windowWorkspaceIdx at *
  rw [hw]
  exact findIdxQ_append_some _ _ _ _ _ h

theorem active_onWorkspaceSwitched (st : State) (frm tgt : Nat) :
    (onWorkspaceSwitched st frm tgt).active = st.active := by
  unfold onWorkspaceSwitched
  dsimp only
  split
  · split <;> rfl
  · rfl

/-- `ws.activate(...)` leaves workspace index `i` active. -/
theorem active_activateWs (st : State) (i : Nat) : (activateWs st i).active = i := by
  unfold activateWs
  split
  · rename_i h
    exact h.symm
  · rw [active_onWorkspaceSwitched]

theorem mem_pendingCleanup_schedule (st : State) (i : Nat) :
    i ∈ (scheduleWorkspaceCleanup st i).pendingCleanup := by
  simp [scheduleWorkspaceCleanup]

@[simp] theorem active_setWin (st : State) (w : Nat) (d : WinData) :
    (st.setWin w d).active = st.active := rfl

/-!  Concrete states used by counterexamples and witnesses. -/

/-- A quiescent manager on a host with two empty workspaces (the state
right after `enable()` on an empty session). -/
def baseState : State :=
  { workspaces := [[], []], winData := fun _ => WinData.plain, active := 0,
    fullscreenWorkspaces := [], windowSignals := [], pendingIsolation := [],
    pendingRestore := [], pendingCleanup := [], pendingCleanupAll := false,
    pendingWindowCreated := [], pendingWindowUnmanaged := [],
    checkWorkspacesPending := false, isCreatingWorkspace := false,
    dynamicWorkspaces := true, workspacesOnlyOnPrimary := false,
    numWorkspacesSetting := none }

/-- Three workspaces, window `7` isolated on the last one. -/
def restoreCexState : State :=
  { baseState with
    workspaces := [[], [], [7]], windowSignals := [7] }

/-!  C1: restore target of `_executeWindowRestore`. -/

/-- Claim C1, counterexample to the claim as stated: with three workspaces
and a recorded original index `5 ≥ n_workspaces`, the delayed restore moves
window `7` to workspace `min(5, 2) = 2` — the highest existing index — and
activates it, not the main workspace `0` required by the claim. -/
theorem restore_stale_original_not_main :
    3 ≤ 5 ∧ restoreCexState.n = 3 ∧
    windowWorkspaceIdx (executeWindowRestore restoreCexState 7 (some 5) (some 2)) 7 =
      some 2 ∧
    (executeWindowRestore restoreCexState 7 (some 5) (some 2)).active = 2 ∧
    (2 : Nat) ≠ 0 := by
  decide

/-- Claim C1 (amended): when the delayed restore fires for a window with a
recorded original workspace index, `_executeWindowRestore` moves the window
to `min(originalIndex, n_workspaces - 1)` and activates that workspace — the
original index itself whenever that workspace still exists, and otherwise
the highest existing workspace index (not the main workspace) — and, when
the vacated fullscreen workspace index is positive, schedules its cleanup. -/
theorem restore_targets_clamped_original (st : State) (w k : Nat) (f : Option Nat)
    (hn : 1 ≤ st.n) :
    windowWorkspaceIdx (executeWindowRestore st w (some k) f) w =
      some (min k (st.n - 1)) ∧
    (executeWindowRestore st w (some k) f).active = min k (st.n - 1) ∧
    (k < st.n → min k (st.n - 1) = k) ∧
    (st.n ≤ k → min k (st.n - 1) = st.n - 1) ∧
    (∀ fi, f = some fi → 0 < fi →
      fi ∈ (executeWindowRestore st w (some k) f).pendingCleanup) := by
  have ht : min k (st.n - 1) < st.n := by omega
  unfold executeWindowRestore
  dsimp only
  rw [if_pos ht]
  cases f with
  | none =>
    dsimp only
    refine ⟨?_, ?_, fun _ => by omega, fun _ => by omega, fun fi h => by simp at h⟩
    · rw [wwIdx_congr _ (changeWorkspace st w (min k (st.n - 1))) w (by simp),
          wwIdx_changeWorkspace_self st w _ ht]
    · rw [active_setWin, active_activateWs]
  | some fi =>
    dsimp only
    by_cases hfi : fi > 0
    · rw [if_pos hfi]
      refine ⟨?_, ?_, fun _ => by omega, fun _ => by omega, ?_⟩
      · rw [wwIdx_congr _ (changeWorkspace st w (min k (st.n - 1))) w (by simp),
          wwIdx_changeWorkspace_self st w _ ht]
      · rw [show ∀ s : State, ∀ i, (scheduleWorkspaceCleanup s i).active = s.active
          from fun _ _ => rfl, active_setWin, active_activateWs]
      · intro fi' hf' hpos
        cases hf'
        exact mem_pendingCleanup_schedule _ _
    · rw [if_neg hfi]
      refine ⟨?_, ?_, fun _ => by omega, fun _ => by omega, ?_⟩
      · rw [wwIdx_congr _ (changeWorkspace st w (min k (st.n - 1))) w (by simp),
          wwIdx_changeWorkspace_self st w _ ht]
      · rw [active_setWin, active_activateWs]
      · intro fi' hf' hpos
        cases hf'
        omega

/-- Claim C1 witness: the amended theorem evaluated on a concrete state —
original index `1` still exists among 3 workspaces, so window `7` returns
exactly there and cleanup of fullscreen workspace `2` is scheduled. -/
theorem restore_targets_clamped_original_witness :
    windowWorkspaceIdx (executeWindowRestore restoreCexState 7 (some 1) (some 2)) 7 =
      some (min 1 (restoreCexState.n - 1)) ∧
    (executeWindowRestore restoreCexState 7 (some 1) (some 2)).active =
      min 1 (restoreCexState.n - 1) ∧
    (1 < restoreCexState.n → min 1 (restoreCexState.n - 1) = 1) ∧
    (restoreCexState.n ≤ 1 → min 1 (restoreCexState.n - 1) = restoreCexState.n - 1) ∧
    (∀ fi, (some 2 : Option Nat) = some fi → 0 < fi →
      fi ∈ (executeWindowRestore restoreCexState 7 (some 1) (some 2)).pendingCleanup) :=
  restore_targets_clamped_original restoreCexState 7 1 (some 2) (by decide)

/-!  C7: `_shiftFullscreenIndicesAfterRemove`. -/

theorem fsws_shift (st : State) (r : Nat) :
    (shiftFullscreenIndicesAfterRemove st r).fullscreenWorkspaces =
      st.fullscreenWorkspaces.filterMap (shiftMapEntry r) := by
  unfold shiftFullscreenIndicesAfterRemove
  dsimp only
  refine foldl_preserve
    (fun s => s.fullscreenWorkspaces = st.fullscreenWorkspaces.filterMap (shiftMapEntry r))
    _ ?_ _ _ rfl
  intro s a h
  unfold shiftOrigUpdate
  split
  · split <;> simpa
  · exact h

theorem foldl_shiftWinFs_orig (r : Nat) (base : State) :
    ∀ (l : List (Nat × Nat)) (s : State),
      (s.windowSignals = base.windowSignals ∧
        ∀ x, (s.winData x).originalWorkspaceIndex =
          (base.winData x).originalWorkspaceIndex) →
      ((List.foldl (shiftWinFsUpdate r) s l).windowSignals = base.windowSignals ∧
        ∀ x, ((List.foldl (shiftWinFsUpdate r) s l).winData x).originalWorkspaceIndex =
          (base.winData x).originalWorkspaceIndex) := by
  intro l s hs
  refine foldl_preserve
    (fun s => s.windowSignals = base.windowSignals ∧
      ∀ x, (s.winData x).originalWorkspaceIndex =
        (base.winData x).originalWorkspaceIndex) _ ?_ l s hs
  rintro s' a ⟨h1, h2⟩
  unfold shiftWinFsUpdate
  split
  · refine ⟨h1, fun x => ?_⟩
    by_cases hx : x = a.2
    · simpa [State.setWin, hx] using h2 a.2
    · simpa [State.setWin, hx] using h2 x
  · exact ⟨h1, h2⟩

theorem winData_shiftOrigUpdate_ne (r : Nat) (s : State) (w x : Nat) (hx : x ≠ w) :
    ((shiftOrigUpdate r s w).winData x) = s.winData x := by
  unfold shiftOrigUpdate
  split
  · split
    · simp [State.setWin, hx]
    · rfl
  · rfl

theorem foldl_shiftOrigUpdate_spec (r : Nat) :
    ∀ (l : List Nat) (s : State), l.Nodup →
      (∀ x, x ∉ l → ((List.foldl (shiftOrigUpdate r) s l).winData x) = s.winData x) ∧
      (∀ x ∈ l, ((List.foldl (shiftOrigUpdate r) s l).winData x).originalWorkspaceIndex =
        match (s.winData x).originalWorkspaceIndex with
        | some j => if j > r then some (j - 1) else some j
        | none => none)
  | [], s, _ => ⟨fun _ _ => rfl, fun x hx => absurd hx (by simp)⟩
  | w :: l, s, hnd => by
    have hw : w ∉ l := (List.nodup_cons.mp hnd).1
    have hnd' : l.Nodup := (List.nodup_cons.mp hnd).2
    obtain ⟨ih1, ih2⟩ := foldl_shiftOrigUpdate_spec r l (shiftOrigUpdate r s w) hnd'
    rw [List.foldl_cons]
    constructor
    · intro x hx
      rw [List.mem_cons, not_or] at hx
      rw [ih1 x hx.2, winData_shiftOrigUpdate_ne r s w x hx.1]
    · intro x hx
      rw [List.mem_cons] at hx
      rcases hx with hx | hx
      · subst hx
        rw [ih1 x hw]
        unfold shiftOrigUpdate
        split
        · rename_i j hj2
          split
          · simp [State.setWin]
          · exact hj2
        · rename_i hj2
          exact hj2
      · rw [ih2 x hx, winData_shiftOrigUpdate_ne r s w x]
        intro he
        subst he
        exact hw hx

/-- Claim C7: removing a workspace at index `r` shifts the manager's
tracking: in the rebuilt FullscreenWorkspaceMap an entry with key `k < r`
is kept as is and an entry with key `k ≥ r` comes exactly from the old
entry at `k + 1` (the old key `r` itself having been deleted before the
shift), and every tracked window's stored original-workspace index `j`
becomes `j - 1` when `j > r` and stays `j` otherwise. -/
theorem shift_reindexes_tracking (st : State) (r : Nat)
    (hnd : st.windowSignals.Nodup) :
    (∀ k win,
      (k, win) ∈ (shiftFullscreenIndicesAfterRemove st r).fullscreenWorkspaces ↔
        ((k < r ∧ (k, win) ∈ st.fullscreenWorkspaces) ∨
         (r ≤ k ∧ (k + 1, win) ∈ st.fullscreenWorkspaces))) ∧
    (∀ w ∈ st.windowSignals, ∀ j,
      (st.winData w).originalWorkspaceIndex = some j →
      ((shiftFullscreenIndicesAfterRemove st r).winData w).originalWorkspaceIndex =
        if r < j then some (j - 1) else some j) := by
  constructor
  · intro k win
    rw [fsws_shift, List.mem_filterMap]
    constructor
    · rintro ⟨⟨a, b⟩, hab, hf⟩
      unfold shiftMapEntry at hf
      split at hf
      · rename_i h1
        rw [Option.some_inj, Prod.mk.injEq] at hf
        obtain ⟨hk, hwin⟩ := hf
        subst hwin
        right
        have ha : a = k + 1 := by omega
        rw [ha] at hab
        exact ⟨by omega, hab⟩
      · split at hf
        · rename_i h1 h2
          rw [Option.some_inj] at hf
          rw [hf] at hab h2
          exact Or.inl ⟨h2, hab⟩
        · cases hf
    · rintro (⟨hk, hmem⟩ | ⟨hk, hmem⟩)
      · refine ⟨(k, win), hmem, ?_⟩
        unfold shiftMapEntry
        rw [if_neg (by omega), if_pos (by omega)]
      · refine ⟨(k + 1, win), hmem, ?_⟩
        unfold shiftMapEntry
        rw [if_pos (by omega)]
        simp
  · intro w hw j hj
    have hphase1 := foldl_shiftWinFs_orig r st st.fullscreenWorkspaces st ⟨rfl, fun _ => rfl⟩
    have key : ∀ s2 : State, s2.windowSignals = st.windowSignals →
        (s2.winData w).originalWorkspaceIndex = some j →
        ((List.foldl (shiftOrigUpdate r) s2 s2.windowSignals).winData
          w).originalWorkspaceIndex = if r < j then some (j - 1) else some j := by
      intro s2 h1 h2
      rw [h1]
      rw [(foldl_shiftOrigUpdate_spec r st.windowSignals s2 hnd).2 w hw, h2]
    unfold shiftFullscreenIndicesAfterRemove
    dsimp only
    exact key _ hphase1.1 ((hphase1.2 w).trans hj)

/-- Window isolated on workspace 1, created there. -/
def isolatedAt1 : WinData :=
  { WinData.plain with
    originalWorkspaceIndex := some 1,
    fullscreenWorkspaceIndex := some 1, isolated := true }

/-- Window isolated on workspace 3, created there. -/
def isolatedAt3 : WinData :=
  { WinData.plain with
    originalWorkspaceIndex := some 3,
    fullscreenWorkspaceIndex := some 3, isolated := true }

/-- Concrete shift scenario: map entries at keys 1 and 3 for windows 5 and
6, both tracked, removal at index 2. -/
def shiftCexState : State :=
  { baseState with
    workspaces := [[], [5], [], [6]],
    fullscreenWorkspaces := [(1, 5), (3, 6)],
    windowSignals := [5, 6],
    winData := fun x =>
      if x = 5 then isolatedAt1 else if x = 6 then isolatedAt3 else WinData.plain }

/-- Claim C7 witness: the shift theorem applied to the concrete scenario. -/
theorem shift_reindexes_tracking_witness :
    (∀ k win,
      (k, win) ∈ (shiftFullscreenIndicesAfterRemove shiftCexState 2).fullscreenWorkspaces ↔
        ((k < 2 ∧ (k, win) ∈ shiftCexState.fullscreenWorkspaces) ∨
         (2 ≤ k ∧ (k + 1, win) ∈ shiftCexState.fullscreenWorkspaces))) ∧
    (∀ w ∈ shiftCexState.windowSignals, ∀ j,
      (shiftCexState.winData w).originalWorkspaceIndex = some j →
      ((shiftFullscreenIndicesAfterRemove shiftCexState 2).winData w).originalWorkspaceIndex =
        if 2 < j then some (j - 1) else some j) :=
  shift_reindexes_tracking shiftCexState 2 (by decide)

/-!  C9: the num-workspaces limit versus the absolute ceiling. -/

theorem ensureMinLoop_eq_self (fuel : Nat) (st : State)
    (h2 : ¬(st.n < MIN_WORKSPACES)) : ensureMinLoop fuel st = st := by
  cases fuel with
  | zero => rfl
  | succ f =>
    rw [ensureMinLoop, if_neg (fun h => h2 h.1)]

/-- Claim C9: in fixed-workspace mode with a readable `num-workspaces`
value `v`, the bypassing guard used by fullscreen isolation and by the
minimum/trailing-empty maintenance allows appending exactly up to the
absolute ceiling of 36, the non-bypassing guard refuses once the count
reaches `min v 36`, and the trailing-empty maintenance actually appends a
workspace even when the count already equals or exceeds `v` (as long as it
is below 36 and no trailing empty workspace exists). -/
theorem fixed_mode_append_limits (st : State) (v : Nat)
    (hdyn : st.dynamicWorkspaces = false)
    (hset : st.numWorkspacesSetting = some v)
    (hflag : st.isCreatingWorkspace = false)
    (h2 : 2 ≤ st.n) :
    (canAppendWorkspace st true = true ↔ st.n < 36) ∧
    (canAppendWorkspace st false = true ↔ st.n < min v 36) ∧
    (v ≤ st.n → st.n < 36 →
      0 ≤ findLastOccupiedWorkspaceIndex st →
      (st.n : Int) ≤ findLastOccupiedWorkspaceIndex st + 1 →
      (ensureEmptyWorkspaceAtEnd st).n = st.n + 1) := by
  refine ⟨canAppend_true_bypass st hflag, ?_, ?_⟩
  · simp [canAppendWorkspace, getMaxAllowedWorkspaces, hdyn, hset, hflag,
      MAX_WORKSPACES]
  · intro hv h36 hL0 hle
    have hmin : ensureMinWorkspaces st = st :=
      ensureMinLoop_eq_self MIN_WORKSPACES st (by simp only [MIN_WORKSPACES]; omega)
    unfold ensureEmptyWorkspaceAtEnd
    rw [if_neg (by simp [hflag])]
    dsimp only
    rw [if_neg (by simp [KEEP_EMPTY_WORKSPACE_AT_END]), hmin,
      if_pos ⟨hL0, hle, (canAppend_true_bypass st hflag).mpr h36⟩,
      n_appendWorkspace]

/-- Fixed-workspace mode, `num-workspaces = 2`, two workspaces with one
occupied. -/
def fixedModeState : State :=
  { baseState with
    workspaces := [[3], []], dynamicWorkspaces := false,
    numWorkspacesSetting := some 2, windowSignals := [3] }

/-- Claim C9 witness: the guard equivalences evaluated in fixed mode at the
configured limit — the bypassing guard still allows appending, the plain
guard refuses. -/
theorem fixed_mode_append_limits_witness :
    ((canAppendWorkspace fixedModeState true = true ↔ fixedModeState.n < 36) ∧
    (canAppendWorkspace fixedModeState false = true ↔ fixedModeState.n < min 2 36) ∧
    (2 ≤ fixedModeState.n → fixedModeState.n < 36 →
      0 ≤ findLastOccupiedWorkspaceIndex fixedModeState →
      (fixedModeState.n : Int) ≤ findLastOccupiedWorkspaceIndex fixedModeState + 1 →
      (ensureEmptyWorkspaceAtEnd fixedModeState).n = fixedModeState.n + 1)) ∧
    canAppendWorkspace fixedModeState true = true ∧
    canAppendWorkspace fixedModeState false = false :=
  ⟨fixed_mode_append_limits fixedModeState 2 (by decide) (by decide) (by decide)
    (by decide), by decide, by decide⟩

/-!  C6: cancellation on fullscreen toggles. -/

theorem pendingIsolation_restore (st : State) (w : Nat) :
    (restoreWindowFromFullscreen st w).pendingIsolation = st.pendingIsolation := by
  unfold restoreWindowFromFullscreen
  split
  · rfl
  · dsimp only
    split <;> rfl

theorem pendingRestore_scheduleIsolation (st : State) (w : Nat) :
    (scheduleIsolation st w).pendingRestore = st.pendingRestore := by
  unfold scheduleIsolation
  split
  · rfl
  · rw [show ∀ (s : State) (l : List Nat),
      ({ s with pendingIsolation := l } : State).pendingRestore = s.pendingRestore
      from fun _ _ => rfl]
    unfold captureOriginalWorkspace
    split <;> rfl

/-- Window 5 isolated on workspace 1 with a pending restore timer, not
fullscreen (it just exited). -/
def pendingRestoreState : State :=
  { baseState with
    workspaces := [[], [5], []], windowSignals := [5],
    winData := fun x => if x = 5 then { WinData.plain with
      originalWorkspaceIndex := some 0 } else WinData.plain,
    pendingRestore := [(5, some 0, some 1)] }

/-- Claim C6, counterexample to the claim as stated: window 5 has a
pending restore timer; when it re-enters fullscreen, the handler only
schedules isolation — the pending restore timer is NOT cancelled and is
still armed afterwards (so it will later fire and move the again-fullscreen
window back to its original workspace). -/
theorem fullscreen_enter_keeps_pending_restore :
    (step pendingRestoreState (Event.setFull 5 true)).pendingRestore.lookup 5 =
      some (some 0, some 1) ∧
    5 ∈ (step pendingRestoreState (Event.setFull 5 true)).pendingIsolation := by
  decide

/-- Claim C6 (amended): on a fullscreen-exit the handler always cancels a
pending isolation timer for the window, and — when the window is marked
isolated — cancels any pending restore timer before re-arming a fresh one
(whose closure captures the recorded original and fullscreen workspace
indices); a fullscreen-enter does NOT cancel a pending restore timer: it
leaves `_pendingRestore` untouched and only schedules isolation. -/
theorem fullscreen_toggle_cancellation (st : State) (w : Nat) :
    ((st.winData w).fullscreen = false →
      w ∉ (onWindowFullscreenChanged st w).pendingIsolation) ∧
    ((st.winData w).fullscreen = false → (st.winData w).isolated = true →
      (onWindowFullscreenChanged st w).pendingRestore.lookup w =
        some ((st.winData w).originalWorkspaceIndex,
          (st.winData w).fullscreenWorkspaceIndex)) ∧
    ((st.winData w).fullscreen = true →
      (onWindowFullscreenChanged st w).pendingRestore = st.pendingRestore) := by
  refine ⟨?_, ?_, ?_⟩
  · intro hfs
    unfold onWindowFullscreenChanged
    rw [if_neg (by simp [hfs])]
    rw [pendingIsolation_restore]
    simp [cancelPendingIsolation]
  · intro hfs hiso
    unfold onWindowFullscreenChanged
    rw [if_neg (by simp [hfs])]
    unfold restoreWindowFromFullscreen
    rw [if_neg (by simp [show ((cancelPendingIsolation st w).winData w).isolated = true
      from hiso])]
    dsimp only
    split <;> simp [List.lookup] <;> exact ⟨rfl, rfl⟩
  · intro hfs
    unfold onWindowFullscreenChanged
    rw [if_pos (by simp [hfs])]
    rw [pendingRestore_scheduleIsolation]

/-- Window 5 isolated on workspace 1, currently not fullscreen. -/
def exitingState : State :=
  { baseState with
    workspaces := [[], [5], []], windowSignals := [5],
    pendingIsolation := [5],
    winData := fun x => if x = 5 then isolatedAt1 else WinData.plain }

/-- Claim C6 witness: on fullscreen-exit of isolated window 5 the pending
isolation timer is cancelled and a restore timer capturing its recorded
indices is armed. -/
theorem fullscreen_toggle_cancellation_witness :
    5 ∉ (onWindowFullscreenChanged exitingState 5).pendingIsolation ∧
    (onWindowFullscreenChanged exitingState 5).pendingRestore.lookup 5 =
      some ((exitingState.winData 5).originalWorkspaceIndex,
        (exitingState.winData 5).fullscreenWorkspaceIndex) :=
  ⟨(fullscreen_toggle_cancellation exitingState 5).1 (by decide),
   (fullscreen_toggle_cancellation exitingState 5).2.1 (by decide) (by decide)⟩

/-!  C8: redirect-on-create, and C10: deferred unmanaged handling. -/

theorem lookup_some_mem {β : Type} :
    ∀ (m : List (Nat × β)) (k : Nat) (v : β), m.lookup k = some v → (k, v) ∈ m
  | [], _, _, h => by simp [List.lookup] at h
  | (a, b) :: t, k, v, h => by
    simp only [List.lookup] at h
    split at h
    · rename_i heq
      cases h
      rw [show k = a from by simpa using heq]
      exact List.mem_cons_self _ _
    · exact List.mem_cons_of_mem _ (lookup_some_mem t k v h)

theorem lookup_mapDel :
    ∀ (m : List (Nat × Nat)) (k : Nat), (mapDel m k).lookup k = none
  | [], _ => rfl
  | (a, b) :: t, k => by
    unfold mapDel
    rw [List.filter_cons]
    by_cases hk : a = k
    · rw [if_neg (by simpa using hk)]
      exact lookup_mapDel t k
    · rw [if_pos (by simpa using hk), List.lookup_cons,
        show (k == a) = false by simp [Ne.symm hk]]
      exact lookup_mapDel t k

/-- Claim C8: a newly created window that is neither fullscreen nor
skip-taskbar and whose workspace hosts an isolated fullscreen window other
than itself is moved to the main workspace (index 0) with its recorded
original workspace index set to 0; when its workspace hosts no isolated
window (or only itself), it is left untouched.  (The hypothesis that every
FullscreenWorkspaceMap key is at least 1 reflects the manager's own
bookkeeping: workspace 0 is never an isolation target.) -/
theorem redirect_from_fullscreen_workspace (st : State) (w ci : Nat)
    (hfs : (st.winData w).fullscreen = false)
    (hsk : (st.winData w).skipTaskbar = false)
    (hw : windowWorkspaceIdx st w = some ci)
    (hkeys : ∀ p ∈ st.fullscreenWorkspaces, 1 ≤ p.1) :
    (∀ fw, st.fullscreenWorkspaces.lookup ci = some fw → fw ≠ w →
      windowWorkspaceIdx (redirectWindowFromFullscreenWorkspace st w) w = some 0 ∧
      ((redirectWindowFromFullscreenWorkspace st w).winData w).originalWorkspaceIndex =
        some 0) ∧
    ((st.fullscreenWorkspaces.lookup ci = none ∨
      st.fullscreenWorkspaces.lookup ci = some w) →
      redirectWindowFromFullscreenWorkspace st w = st) := by
  have hn : 1 ≤ st.n := Nat.one_le_iff_ne_zero.mpr
    (fun h0 => by simp [State.n] at h0; simp [windowWorkspaceIdx, h0] at hw)
  constructor
  · intro fw hlk hne
    have hci : 1 ≤ ci := hkeys (ci, fw) (lookup_some_mem _ _ _ hlk)
    unfold redirectWindowFromFullscreenWorkspace
    rw [if_neg (by simp [hfs, hsk])]
    simp only [hw, hlk]
    rw [if_pos ⟨hne, hn, by omega⟩]
    constructor
    · rw [wwIdx_congr _ (changeWorkspace st w 0) w (by simp),
        wwIdx_changeWorkspace_self st w 0 (by omega)]
    · simp [State.setWin]
  · intro h
    unfold redirectWindowFromFullscreenWorkspace
    rw [if_neg (by simp [hfs, hsk])]
    simp only [hw]
    rcases h with h | h
    · simp only [h]
    · simp only [h]
      rw [if_neg (by simp)]

/-- Window 9 isolated fullscreen on workspace 1; window 2 just opened
there. -/
def redirectCexState : State :=
  { baseState with
    workspaces := [[1], [9, 2], []],
    fullscreenWorkspaces := [(1, 9)],
    windowSignals := [1, 9, 2],
    winData := fun x => if x = 9 then { isolatedAt1 with fullscreen := true }
      else WinData.plain }

/-- Claim C8 witness: window 2, created on fullscreen workspace 1, is
redirected to the main workspace with its original index recorded as 0. -/
theorem redirect_from_fullscreen_workspace_witness :
    windowWorkspaceIdx (redirectWindowFromFullscreenWorkspace redirectCexState 2) 2 =
      some 0 ∧
    ((redirectWindowFromFullscreenWorkspace redirectCexState 2).winData
      2).originalWorkspaceIndex = some 0 :=
  (redirect_from_fullscreen_workspace redirectCexState 2 1 (by decide) (by decide)
    (by decide) (by decide)).1 9 (by decide) (by decide)

/-- Claim C10, counterexample to the claim as stated: tracked window 9 on
the MAIN workspace (index 0) with recorded original index 2 is unmanaged;
the deferred idle activates workspace 2, but schedules NO cleanup of the
workspace the window occupied (`wsToCleanup = 0` fails the `> 0` guard) —
the pending-cleanup table stays empty. -/
theorem unmanaged_on_main_schedules_no_cleanup :
    (windowUnmanagedIdle { baseState with workspaces := [[], [4], []] } 9
      (some 2) none (some 0)).active = 2 ∧
    (windowUnmanagedIdle { baseState with workspaces := [[], [4], []] } 9
      (some 2) none (some 0)).pendingCleanup = [] := by
  decide

/-- Claim C10 (amended): in the deferred unmanaged handling, when the
recorded original workspace index refers to an existing workspace that is
not active, that workspace is activated; the window's entry at its recorded
fullscreen workspace index is removed from the FullscreenWorkspaceMap; and
cleanup of the workspace it occupied (its fullscreen workspace if isolated,
else the workspace it was on when unmanaged) is scheduled provided that
index is greater than 0. -/
theorem unmanaged_idle_activates_original (st : State) (w k : Nat)
    (f x : Option Nat) (hk : k < st.n) (hact : st.active ≠ k) :
    (windowUnmanagedIdle st w (some k) f x).active = k ∧
    (∀ fi, f = some fi →
      (windowUnmanagedIdle st w (some k) f x).fullscreenWorkspaces.lookup fi = none) ∧
    (∀ c, (f <|> x) = some c → 0 < c →
      c ∈ (windowUnmanagedIdle st w (some k) f x).pendingCleanup) := by
  unfold windowUnmanagedIdle
  dsimp only
  rw [if_pos ⟨hk, hact⟩]
  cases f with
  | none =>
    cases x with
    | none =>
      simp only [Option.none_orElse]
      exact ⟨active_activateWs st k, fun fi h => by simp at h, fun c hc => by simp at hc⟩
    | some cx =>
      simp only [Option.none_orElse]
      by_cases hpos : cx > 0
      · rw [if_pos hpos]
        refine ⟨by simp [scheduleWorkspaceCleanup, active_activateWs],
          fun fi h => by simp at h, ?_⟩
        intro c hc hp
        rw [Option.some_inj] at hc
        subst hc
        exact mem_pendingCleanup_schedule _ _
      · rw [if_neg hpos]
        refine ⟨active_activateWs st k, fun fi h => by simp at h, ?_⟩
        intro c hc hp
        rw [Option.some_inj] at hc
        subst hc
        exact absurd hp hpos
  | some fi =>
    simp only [Option.some_orElse]
    by_cases hpos : fi > 0
    · rw [if_pos hpos]
      refine ⟨by simp [scheduleWorkspaceCleanup, active_activateWs], ?_, ?_⟩
      · intro fi2 hfi
        rw [Option.some_inj] at hfi
        subst hfi
        simpa [scheduleWorkspaceCleanup] using
          lookup_mapDel (activateWs st k).fullscreenWorkspaces fi
      · intro c hc hp
        rw [Option.some_inj] at hc
        subst hc
        exact mem_pendingCleanup_schedule _ _
    · rw [if_neg hpos]
      refine ⟨active_activateWs st k, ?_, ?_⟩
      · intro fi2 hfi
        rw [Option.some_inj] at hfi
        subst hfi
        simpa using lookup_mapDel (activateWs st k).fullscreenWorkspaces fi
      · intro c hc hp
        rw [Option.some_inj] at hc
        subst hc
        exact absurd hp hpos

/-- Claim C10 witness: isolated window 9 (fullscreen workspace 1, original
workspace 0) unmanaged while workspace 1 is active — the idle activates
workspace 0, drops the map entry at key 1, and schedules cleanup of
workspace 1. -/
theorem unmanaged_idle_activates_original_witness :
    (windowUnmanagedIdle { baseState with active := 1, fullscreenWorkspaces := [(1, 9)] }
      9 (some 0) (some 1) (some 1)).active = 0 ∧
    (∀ fi, (some 1 : Option Nat) = some fi →
      (windowUnmanagedIdle { baseState with active := 1, fullscreenWorkspaces := [(1, 9)] }
        9 (some 0) (some 1) (some 1)).fullscreenWorkspaces.lookup fi = none) ∧
    (∀ c, ((some 1 : Option Nat) <|> some 1) = some c → 0 < c →
      c ∈ (windowUnmanagedIdle { baseState with active := 1, fullscreenWorkspaces := [(1, 9)] }
        9 (some 0) (some 1) (some 1)).pendingCleanup) :=
  unmanaged_idle_activates_original _ 9 0 (some 1) (some 1) (by decide) (by decide)

/-!  C2 and C5: `_isolateFullscreenWindow` case analysis. -/

/-- A target workspace is obtainable for a window on workspace `ci`
(complement of the two `MAX_WORKSPACES` abort paths of
`_isolateFullscreenWindow`): either the workspace at `ci+1` exists and is
empty, or it is occupied but the make-room shift can secure a destination,
or it does not exist and a new workspace can be appended. -/
def isolationTargetAvailable (st : State) (ci : Nat) : Prop :=
  if ci + 1 < st.n then
    relevantWindows st (ci + 1) = [] ∨ (isolateMakeRoom st (ci + 1)).isSome = true
  else canAppendWorkspace st true = true

instance (st : State) (ci : Nat) : Decidable (isolationTargetAvailable st ci) := by
  unfold isolationTargetAvailable
  infer_instance

theorem wwIdx_isolateFinish (st : State) (w l t : Nat) (ht : t < st.n) :
    windowWorkspaceIdx (isolateFinish st w l t) w = some t := by
  have hcore : ∀ s6 : State, s6.workspaces = (changeWorkspace st w t).workspaces →
      windowWorkspaceIdx (ensureEmptyWorkspaceAtEnd s6) w = some t := by
    intro s6 h6
    obtain ⟨k, hk, -⟩ := ensureEmpty_spec s6
    refine wwIdx_extend w k ?_ (wwIdx_changeWorkspace_self st w t ht)
    rw [hk, h6]
  unfold isolateFinish
  dsimp only
  split
  · exact hcore _ (by simp)
  · exact hcore _ (by simp)

/-- The two `return` statements guarded by `_canAppendWorkspace` leave the
whole state untouched (the window in particular stays where it is). -/
theorem isolate_abort (st : State) (w ci : Nat)
    (hw : windowWorkspaceIdx st w = some ci)
    (hsm : ci = 0 ∨ ((relevantWindows st ci).filter (fun x => x ≠ w)).length > 0)
    (hna : ¬isolationTargetAvailable st ci) :
    isolateFullscreenWindow st w = st := by
  unfold isolateFullscreenWindow
  split
  · rfl
  dsimp only
  simp only [hw, Option.getD_some]
  rw [if_neg (not_not_intro hsm)]
  unfold isolationTargetAvailable at hna
  by_cases hlt : ci + 1 < st.n
  · rw [if_pos hlt]
    rw [if_pos hlt] at hna
    rw [not_or] at hna
    obtain ⟨hrel, hms⟩ := hna
    rw [if_neg hrel]
    have hnone : isolateMakeRoom st (ci + 1) = none :=
      Option.not_isSome_iff_eq_none.mp (by simpa using hms)
    simp only [hnone]
  · rw [if_neg hlt]
    rw [if_neg hlt] at hna
    rw [if_neg hna]

/-- When the decision rule says "move" and a target is obtainable, the
window really ends up on a different workspace. -/
theorem isolate_moves (st : State) (w ci : Nat)
    (hiso : (st.winData w).isolated = false)
    (hw : windowWorkspaceIdx st w = some ci)
    (hsm : ci = 0 ∨ ((relevantWindows st ci).filter (fun x => x ≠ w)).length > 0)
    (hav : isolationTargetAvailable st ci) :
    ∃ t, windowWorkspaceIdx (isolateFullscreenWindow st w) w = some t ∧ t ≠ ci := by
  have hci : ci < st.n := wwIdx_lt_n hw
  unfold isolateFullscreenWindow
  rw [if_neg (by simp [hiso])]
  dsimp only
  simp only [hw, Option.getD_some]
  rw [if_neg (not_not_intro hsm)]
  unfold isolationTargetAvailable at hav
  by_cases hlt : ci + 1 < st.n
  · rw [if_pos hlt]
    rw [if_pos hlt] at hav
    by_cases hrel : relevantWindows st (ci + 1) = []
    · rw [if_pos hrel]
      exact ⟨ci + 1, wwIdx_isolateFinish st w ci (ci + 1) hlt, by omega⟩
    · rw [if_neg hrel]
      rcases hav with hav | hav
      · exact absurd hav hrel
      · obtain ⟨s2, hs2⟩ := Option.isSome_iff_exists.mp hav
        simp only [hs2]
        refine ⟨ci + 1, wwIdx_isolateFinish s2 w ci (ci + 1) ?_, by omega⟩
        exact lt_of_lt_of_le hlt (n_le_isolateMakeRoom st (ci + 1) s2 hs2)
  · rw [if_neg hlt]
    rw [if_neg hlt] at hav
    rw [if_pos hav]
    refine ⟨(appendWorkspace st).n - 1, ?_, ?_⟩
    · refine wwIdx_isolateFinish (appendWorkspace st) w ci ((appendWorkspace st).n - 1) ?_
      rw [n_appendWorkspace]
      omega
    · rw [n_appendWorkspace]
      omega

theorem canAppend_false_of_ge (st : State) (b : Bool) (h : 36 ≤ st.n) :
    canAppendWorkspace st b = false := by
  unfold canAppendWorkspace
  rw [if_pos (by simpa [MAX_WORKSPACES] using h)]

theorem ensure_eq_of_ceiling (st : State) (h : 36 ≤ st.n) :
    ensureEmptyWorkspaceAtEnd st = st := by
  unfold ensureEmptyWorkspaceAtEnd
  split
  · rfl
  dsimp only
  rw [if_neg (by simp [KEEP_EMPTY_WORKSPACE_AT_END])]
  have hmin : ensureMinWorkspaces st = st :=
    ensureMinLoop_eq_self MIN_WORKSPACES st (by simp only [MIN_WORKSPACES]; omega)
  rw [hmin, if_neg ?_]
  rintro ⟨-, -, hc⟩
  rw [canAppend_false_of_ge st true h] at hc
  cases hc

theorem n_isolateFinish_of_ceiling (st : State) (w l t : Nat) (h36 : 36 ≤ st.n) :
    (isolateFinish st w l t).n = st.n := by
  have hcore : ∀ s6 : State, s6.n = st.n → (ensureEmptyWorkspaceAtEnd s6).n = st.n := by
    intro s6 h6
    rw [ensure_eq_of_ceiling s6 (by omega), h6]
  unfold isolateFinish
  dsimp only
  split
  · exact hcore _ (by simp [State.n, changeWorkspace])
  · exact hcore _ (by simp [State.n, changeWorkspace])

theorem n_makeRoom_of_ceiling (st : State) (d : Nat) (s2 : State)
    (h : isolateMakeRoom st d = some s2) (h36 : 36 ≤ st.n) : s2.n = st.n := by
  unfold isolateMakeRoom at h
  dsimp only at h
  split at h
  · cases h
    simp
  · split at h
    · rename_i hca
      rw [canAppend_false_of_ge st true h36] at hca
      cases hca
    · cases h

theorem n_isolate_of_ceiling (st : State) (w : Nat) (h36 : 36 ≤ st.n) :
    (isolateFullscreenWindow st w).n = st.n := by
  unfold isolateFullscreenWindow
  split
  · rfl
  dsimp only
  split
  · rw [ensure_eq_of_ceiling _ (by simpa [State.n] using h36)]
    simp [State.n]
  · split
    · split
      · exact n_isolateFinish_of_ceiling st w _ _ h36
      · split
        · rfl
        · rename_i s2 heq
          have h2 := n_makeRoom_of_ceiling st _ s2 heq h36
          rw [n_isolateFinish_of_ceiling s2 w _ _ (by omega), h2]
    · split
      · rename_i hca
        rw [canAppend_false_of_ge st true h36] at hca
        cases hca
      · rfl

/-- Claim C2 (amended): when the isolation timer fires with the workspace
count already at the ceiling of 36, no workspace is created or removed (the
count stays exactly 36), and when no target workspace is obtainable (the
target is occupied with no empty workspace available, or missing, and none
can be appended) the isolation aborts leaving the entire state — in
particular the window's position — unchanged, without raising an error.
The window CAN still be moved when an empty target workspace already
exists (see the counterexample to the original claim). -/
theorem isolation_at_ceiling (st : State) (w : Nat) (h36 : st.n = 36) :
    (isolateFullscreenWindow st w).n = 36 ∧
    (∀ ci, windowWorkspaceIdx st w = some ci →
      (ci = 0 ∨ ((relevantWindows st ci).filter (fun x => x ≠ w)).length > 0) →
      ¬isolationTargetAvailable st ci →
      isolateFullscreenWindow st w = st) := by
  refine ⟨?_, fun ci hw hsm hna => isolate_abort st w ci hw hsm hna⟩
  rw [n_isolate_of_ceiling st w (by omega)]
  exact h36

/-- A fullscreen window sitting on the main workspace. -/
def fullscreenOnMain : WinData :=
  { WinData.plain with fullscreen := true, originalWorkspaceIndex := some 0 }

/-- 36 workspaces (the ceiling), window 0 fullscreen on the main workspace,
all other workspaces empty, isolation pending. -/
def ceilingState : State :=
  { baseState with
    workspaces := [[0]] ++ List.replicate 35 [],
    winData := fun _ => fullscreenOnMain,
    windowSignals := [0], pendingIsolation := [0] }

/-- Claim C2, counterexample to the claim as stated: at the 36-workspace
ceiling with workspace 1 empty, the isolation timer still MOVES the window
from the main workspace into workspace 1 (only workspace creation is
refused). -/
theorem ceiling_isolation_still_moves :
    ceilingState.n = 36 ∧
    windowWorkspaceIdx ceilingState 0 = some 0 ∧
    windowWorkspaceIdx (step ceilingState (Event.fireIsolation 0)) 0 = some 1 ∧
    (step ceilingState (Event.fireIsolation 0)).n = 36 := by
  decide

/-- 36 workspaces, every one occupied by one window; window 0 (fullscreen)
on the main workspace. -/
def fullCeilingState : State :=
  { baseState with
    workspaces := (List.range 36).map (fun i => [i]),
    winData := fun x => if x = 0 then fullscreenOnMain else WinData.plain,
    windowSignals := [0], pendingIsolation := [0] }

/-- Claim C2 witness: with all 36 workspaces occupied, isolation of window
0 aborts — the count stays 36 and the state is unchanged. -/
theorem isolation_at_ceiling_witness :
    (isolateFullscreenWindow fullCeilingState 0).n = 36 ∧
    isolateFullscreenWindow fullCeilingState 0 = fullCeilingState :=
  ⟨(isolation_at_ceiling fullCeilingState 0 (by decide)).1,
   (isolation_at_ceiling fullCeilingState 0 (by decide)).2 0 (by decide) (by decide)
     (by decide)⟩

/-- Claim C5 (amended): when the isolation timer fires for a still-
fullscreen, not-yet-isolated window on workspace `ci`, the window stays on
`ci` when it is alone on a non-main workspace (`ci > 0`, no other relevant
window there); when the decision rule says move (`ci = 0` or another
non-skip-taskbar window shares the workspace), the window is moved to a
different workspace if and only if a target workspace is obtainable —
at the 36 ceiling with no empty target the isolation aborts with the
window unmoved. -/
theorem isolate_decision_rule (st : State) (w ci : Nat)
    (hiso : (st.winData w).isolated = false)
    (hw : windowWorkspaceIdx st w = some ci) :
    (¬(ci = 0 ∨ ((relevantWindows st ci).filter (fun x => x ≠ w)).length > 0) →
      windowWorkspaceIdx (isolateFullscreenWindow st w) w = some ci) ∧
    ((ci = 0 ∨ ((relevantWindows st ci).filter (fun x => x ≠ w)).length > 0) →
      (isolationTargetAvailable st ci →
        ∃ t, windowWorkspaceIdx (isolateFullscreenWindow st w) w = some t ∧ t ≠ ci) ∧
      (¬isolationTargetAvailable st ci → isolateFullscreenWindow st w = st)) := by
  refine ⟨?_, fun hsm =>
    ⟨isolate_moves st w ci hiso hw hsm, isolate_abort st w ci hw hsm⟩⟩
  intro hns
  have hcore : ∀ s2 : State, s2.workspaces = st.workspaces →
      windowWorkspaceIdx (ensureEmptyWorkspaceAtEnd s2) w = some ci := by
    intro s2 h2
    obtain ⟨k, hk, -⟩ := ensureEmpty_spec s2
    refine wwIdx_extend w k ?_ hw
    rw [hk, h2]
  unfold isolateFullscreenWindow
  rw [if_neg (by simp [hiso])]
  dsimp only
  simp only [hw, Option.getD_some]
  rw [if_pos hns]
  exact hcore _ (by simp)

/-- Fullscreen window that was created on workspace 1, not yet isolated. -/
def fullscreenAt1 : WinData :=
  { WinData.plain with fullscreen := true, originalWorkspaceIndex := some 1 }

/-- Window 5 fullscreen and alone on workspace 1, another window on main. -/
def aloneState : State :=
  { baseState with
    workspaces := [[2], [5], []],
    winData := fun x => if x = 5 then fullscreenAt1 else WinData.plain,
    windowSignals := [2, 5], pendingIsolation := [5] }

/-- Claim C5, counterexample to the claim as stated: window 0 is on the
main workspace (the decision rule demands a move) and its isolation timer
fires while fullscreen, yet with all 36 workspaces occupied the manager
does not move it — the "moves if and only if" of the original claim fails
at the ceiling. -/
theorem ceiling_blocks_decision_rule :
    windowWorkspaceIdx fullCeilingState 0 = some 0 ∧
    windowWorkspaceIdx (step fullCeilingState (Event.fireIsolation 0)) 0 = some 0 := by
  decide

/-- Claim C5 witness: window 5, alone on non-main workspace 1, is not
moved by its isolation pass. -/
theorem isolate_decision_rule_witness :
    windowWorkspaceIdx (isolateFullscreenWindow aloneState 5) 5 = some 1 :=
  (isolate_decision_rule aloneState 5 1 (by decide) (by decide)).1 (by decide)

/-!  C3: the two-workspace minimum, and C4: the trailing empty workspace. -/

/-- Claim C3: across every sequence of events (fullscreen enter/exit
handlers, window creation/closing, workspace switches, and every scheduled
timer and idle callback) the workspace count never drops below 2 — no
removal performed by the manager leaves fewer than 2 workspaces — and
whenever the maintenance routine runs outside of workspace creation it
brings the count up to at least 2. -/
theorem workspace_count_never_below_two :
    (∀ (st : State) (evs : List Event), 2 ≤ st.n → 2 ≤ (run st evs).n) ∧
    (∀ st : State, st.isCreatingWorkspace = false →
      2 ≤ (ensureEmptyWorkspaceAtEnd st).n) := by
  refine ⟨fun st evs h => two_le_run st evs h, fun st hflag => ?_⟩
  unfold ensureEmptyWorkspaceAtEnd
  rw [if_neg (by simp [hflag])]
  dsimp only
  rw [if_neg (by simp [KEEP_EMPTY_WORKSPACE_AT_END])]
  have h2 : 2 ≤ (ensureMinWorkspaces st).n :=
    two_le_ensureMinLoop MIN_WORKSPACES st hflag (by simp [MIN_WORKSPACES])
  split
  · rw [n_appendWorkspace]
    omega
  · exact h2

/-- The spec's own end-to-end scenario: a window is created on main, goes
fullscreen, is isolated, exits fullscreen, is restored, and the fullscreen
workspace is cleaned up. -/
def scenarioEvents : List Event :=
  [.createWindow 5 0 false false, .fireWindowCreated 5,
   .setFull 5 true, .fireIsolation 5, .fireCheckWorkspaces,
   .setFull 5 false, .fireRestore 5, .fireCleanup 1, .fireCheckWorkspaces]

/-- Host left with a single workspace. -/
def oneWorkspaceState : State :=
  { baseState with workspaces := [[]] }

/-- Claim C3 witness: the invariant through the full isolate/restore
scenario, and the maintenance routine restoring the minimum from a single
workspace. -/
theorem workspace_count_never_below_two_witness :
    2 ≤ (run baseState scenarioEvents).n ∧
    2 ≤ (ensureEmptyWorkspaceAtEnd oneWorkspaceState).n :=
  ⟨workspace_count_never_below_two.1 baseState scenarioEvents (by decide),
   workspace_count_never_below_two.2 oneWorkspaceState (by decide)⟩

/-- Events reaching a settled state in which the active workspace was
emptied by a window closing: three windows on workspaces 0-2 (trailing
empty at 3), switch to workspace 2, close its window, run the deferred
unmanaged idle and the cleanup timer (which refuses to remove the active
workspace). -/
def settlingEvents : List Event :=
  [.createWindow 10 0 false false, .fireWindowCreated 10,
   .createWindow 11 1 false false, .fireWindowCreated 11, .fireCheckWorkspaces,
   .createWindow 12 2 false false, .fireWindowCreated 12, .fireCheckWorkspaces,
   .switchWorkspace 2,
   .closeWindow 12, .fireWindowUnmanaged 12, .fireCleanup 2]

/-- Claim C4, counterexample to the claim as stated: after
`settlingEvents` every pending timer and idle has fired (`noPending`), the
count is far below the ceiling, yet TWO workspaces after the highest-index
occupied one have zero non-skip-taskbar windows — the emptied but still
active workspace 2 plus the trailing empty workspace 3 — so "exactly one"
fails in a settled state. -/
theorem settled_state_two_trailing_empties :
    noPending (run baseState settlingEvents) = true ∧
    trailingWorkspaceCount (run baseState settlingEvents) = 2 ∧
    (run baseState settlingEvents).n < 36 := by
  decide

/-- Claim C4 (amended): whenever the trailing-empty maintenance routine
`_ensureEmptyWorkspaceAtEnd` runs outside of workspace creation — as it
does after every structural change — at least one workspace after the
highest-index occupied workspace has zero non-skip-taskbar windows, unless
the workspace count has reached the 36 ceiling.  "Exactly one" does not
hold in every settled state: an emptied but still-active workspace can
persist alongside the trailing empty one. -/
theorem trailing_empty_after_maintenance (st : State)
    (hflag : st.isCreatingWorkspace = false) :
    1 ≤ trailingWorkspaceCount (ensureEmptyWorkspaceAtEnd st) ∨
    36 ≤ (ensureEmptyWorkspaceAtEnd st).n :=
  ensure_trailing st hflag

/-- Claim C4 witness: the maintenance routine run on a host with one empty
workspace yields a state with at least one trailing empty workspace. -/
theorem trailing_empty_after_maintenance_witness :
    1 ≤ trailingWorkspaceCount (ensureEmptyWorkspaceAtEnd oneWorkspaceState) ∨
    36 ≤ (ensureEmptyWorkspaceAtEnd oneWorkspaceState).n :=
  trailing_empty_after_maintenance oneWorkspaceState (by decide)

end Kiwi
